import Mathlib

/-!
# sysloggen: a verification development

A shallow embedding of `src/sysloggen.cpp` (a multi-threaded generator of
RFC 3164 syslog datagrams over UDP) and theorems about it.

Conventions of the embedding.

* C++ `long` is the signed 64-bit integer of LP64 Linux (the program uses the
  Linux-only `IP_FREEBIND`), `int` is signed 32-bit.  Values are `Int`; a
  conversion `long → int` is the explicit wrap-around `toInt32`.
* The C library, the C++ standard library and the kernel are not part of the
  program.  Their results enter as inputs: `inet_pton` and the
  `uniform_int_distribution` are fields of `Env`, the return values of
  `socket`, `setsockopt`, `bind` and the clock are read from a `Step`.
* Effects are recorded in a `World`: the descriptors that are open and the
  trace of observable events.
* The worker threads are run one after the other; the properties proved count
  events, which does not depend on the interleaving.
-/

namespace Sysloggen

/-! ## Machine integers -/

/-- Conversion of an integer value to `int` (signed 32-bit): the value modulo
`2^32` (the rule of C++20, and of GCC and Clang before it), as done by the
initialisation `int num_messages_for_thread = <long expression>`. -/
def toInt32 (x : Int) : Int := (x + 2147483648) % 4294967296 - 2147483648

/-- Largest value of `int`. -/
def INT_MAX : Int := 2147483647

/-- Smallest value of `long`. -/
def LONG_MIN : Int := -9223372036854775808

/-- Largest value of `long`. -/
def LONG_MAX : Int := 9223372036854775807

/-! ## Work partition (main, lines 289-297) -/

/-- Maps to `long messages_per_thread = num_messages / num_threads;` (C++ division
truncates toward zero). -/
def messages_per_thread (num_messages num_threads : Int) : Int :=
  Int.tdiv num_messages num_threads

/-- Maps to `long remainder = num_messages % num_threads;` (sign of the dividend). -/
def remainder (num_messages num_threads : Int) : Int :=
  Int.tmod num_messages num_threads

/-- Maps to the `long` value of the conditional expression
`(i == num_threads - 1) ? (messages_per_thread + remainder) : messages_per_thread`. -/
def quotaLong (num_messages num_threads i : Int) : Int :=
  if i = num_threads - 1 then
    messages_per_thread num_messages num_threads + remainder num_messages num_threads
  else messages_per_thread num_messages num_threads

/-- Maps to `int num_messages_for_thread = (i == num_threads - 1) ? ... : ...;`
the `long` value is converted to `int`. -/
def num_messages_for_thread (num_messages num_threads i : Int) : Int :=
  toInt32 (quotaLong num_messages num_threads i)

/-- Number of times the body of `for (int j = 0; j < n; ++j)` runs. -/
def loopCount (n : Int) : Nat := n.toNat

/-- The quotas of the threads launched by `for (int i = 0; i < num_threads; ++i)`,
in launch order. -/
def perWorkerQuota (num_messages num_threads : Int) : List Int :=
  (List.range (loopCount num_threads)).map
    (fun (i : Nat) => num_messages_for_thread num_messages num_threads (i : Int))

/-! ## Random strings (generateRandomString, lines 41-55) -/

/-- State of a `std::mt19937` engine, seen through the sequence of the values it
returns: `outputs k` is the value of the `k`-th call, `pos` the number of calls
made so far.  Every sequence of 32-bit values is allowed. -/
structure Mt19937 where
  outputs : Nat → Nat
  pos : Nat

/-- One call `gen()`: a value in `0 .. 2^32 - 1` and the advanced engine. -/
def Mt19937.next (g : Mt19937) : Nat × Mt19937 :=
  (g.outputs g.pos % 4294967296, { outputs := g.outputs, pos := g.pos + 1 })

/-- The characters written in the initialiser of
`static const char alphanum[]`. -/
def alphanumLiteral : String :=
  "0123456789ABCDEFGHIJKLMNOPQRSTUVWXYZabcdefghijklmnopqrstuvwxyz "

/-- The array `alphanum`: the characters of the literal and the terminating NUL. -/
def alphanum : List Char := alphanumLiteral.data ++ [Char.ofNat 0]

/-- Value of `sizeof(alphanum)`: the number of elements of the array. -/
def sizeofAlphanum : Nat := alphanum.length

/-- One execution of the loop body: `alphanum[gen_str() % (sizeof(alphanum) - 1)]`. -/
def randomChar (g : Mt19937) : Char × Mt19937 :=
  (alphanum.getD (g.next.1 % (sizeofAlphanum - 1)) (Char.ofNat 0), g.next.2)

/-- The loop `for (int i = 0; i < len; ++i) s[i] = ...` of generateRandomString,
the characters in index order. -/
def generateRandomChars : Nat → Mt19937 → List Char × Mt19937
  | 0, g => ([], g)
  | n + 1, g =>
    let c := randomChar g
    let rest := generateRandomChars n c.2
    (c.1 :: rest.1, rest.2)

/-- Maps to generateRandomString(len) for `len ≥ 0` (the only call passes 50);
`gen_str` is the thread-local engine. -/
def generateRandomString (len : Nat) (gen_str : Mt19937) : String × Mt19937 :=
  (String.mk (generateRandomChars len gen_str).1, (generateRandomChars len gen_str).2)

/-! ## Timestamp (generateRFC3164Timestamp, lines 59-74) -/

/-- Broken-down time `struct tm`, as returned by `localtime`. -/
structure Tm where
  tm_sec : Nat
  tm_min : Nat
  tm_hour : Nat
  tm_mday : Nat
  tm_mon : Nat
  tm_year : Int
  tm_wday : Nat
  tm_yday : Nat
  tm_isdst : Int

/-- Abbreviated month names of the "C" locale, indexed by `tm_mon`.  The program
never changes the locale. -/
def abMonth : List String :=
  ["Jan", "Feb", "Mar", "Apr", "May", "Jun", "Jul", "Aug", "Sep", "Oct", "Nov", "Dec"]

/-- Decimal rendering of `n` padded on the left with `c` to width `w`. -/
def padLeft (c : Char) (w : Nat) (n : Nat) : List Char :=
  List.replicate (w - (Nat.repr n).length) c ++ (Nat.repr n).data

/-- Output of one conversion specification `%c` of `strftime` in the "C" locale,
for the conversions the program uses and `%%`; any other is copied. -/
def conversion (t : Tm) (c : Char) : List Char :=
  if c = 'b' then (abMonth.getD t.tm_mon "?").data
  else if c = 'e' then padLeft ' ' 2 t.tm_mday
  else if c = 'H' then padLeft '0' 2 t.tm_hour
  else if c = 'M' then padLeft '0' 2 t.tm_min
  else if c = 'S' then padLeft '0' 2 t.tm_sec
  else if c = '%' then ['%']
  else ['%', c]

/-- The library formatter `std::put_time(ltm, fmt)`: ordinary characters are
copied, `%c` is replaced by its conversion. -/
def put_time (t : Tm) : List Char → List Char
  | [] => []
  | [c] => [c]
  | c :: d :: rest =>
    if c = '%' then conversion t d ++ put_time t rest
    else c :: put_time t (d :: rest)

/-- Maps to generateRFC3164Timestamp; `ltm` is the value of `localtime(&now_c)`. -/
def generateRFC3164Timestamp (ltm : Tm) : String :=
  String.mk (put_time ltm "%b %e %H:%M:%S".data)

/-! ## Library and operating-system interface -/

/-- A `std::uniform_int_distribution<>(a, b)` applied to an engine, with its
library contract: for `a ≤ b` the value lies in `a .. b`.  How many engine
values a draw consumes is left to the library. -/
structure UniformIntDistribution where
  sample : Nat → Nat → Mt19937 → Nat × Mt19937
  lower : ∀ a b g, a ≤ b → a ≤ (sample a b g).1
  upper : ∀ a b g, a ≤ b → (sample a b g).1 ≤ b

/-- The library functions the program calls: `inet_pton(AF_INET, s, _)` (its
return value: 1 for a valid dotted-quad address, 0 otherwise) and the
distribution. -/
structure Env where
  inet_pton : String → Int
  distrib : UniformIntDistribution

/-- The three global vectors, filled before the threads start. -/
structure Pools where
  syslogMessages : List String
  hostnames : List String
  source_ips : List String

/-- The two random engines a worker uses: the global `gen` and its
thread-local `gen_str`. -/
structure Rng where
  gen : Mt19937
  gen_str : Mt19937

/-! ## Message composition (getSyslogMessage, lines 78-124) -/

/-- Lines 85-91: the `<MESSAGE>` part. -/
def messageContent (env : Env) (P : Pools) (r : Rng) : String × Rng :=
  if P.syslogMessages.isEmpty = false then
    (P.syslogMessages.getD
        (env.distrib.sample 0 (P.syslogMessages.length - 1) r.gen).1 "",
      { gen := (env.distrib.sample 0 (P.syslogMessages.length - 1) r.gen).2,
        gen_str := r.gen_str })
  else
    ((generateRandomString 50 r.gen_str).1,
      { gen := r.gen, gen_str := (generateRandomString 50 r.gen_str).2 })

/-- Lines 96-102: the hostname. -/
def currentHostname (env : Env) (P : Pools) (r : Rng) : String × Rng :=
  if P.hostnames.isEmpty = false then
    (P.hostnames.getD (env.distrib.sample 0 (P.hostnames.length - 1) r.gen).1 "",
      { gen := (env.distrib.sample 0 (P.hostnames.length - 1) r.gen).2,
        gen_str := r.gen_str })
  else ("myhost", r)

/-- Line 105: `int facility = 1;`. -/
def facility : Int := 1

/-- Line 106: `int severity = 3;`. -/
def severity : Int := 3

/-- Line 108: `int pri = (facility * 8) + severity;`. -/
def pri : Int := (facility * 8) + severity

/-- Line 113: `string app_tag = "sysloggen";`. -/
def app_tag : String := "sysloggen"

/-- Maps to getSyslogMessage: the text streamed into `oss_msg` (line 122) and the
engines after the draws.  `now` is the local time read by the timestamp
formatter. -/
def getSyslogMessage (env : Env) (P : Pools) (now : Tm) (r : Rng) : String × Rng :=
  let body := messageContent env P r
  let host := currentHostname env P body.2
  ("<" ++ toString pri ++ ">" ++ generateRFC3164Timestamp now ++ " " ++ host.1 ++ " "
      ++ app_tag ++ ": " ++ body.1 ++ "\n",
    host.2)

/-! ## Effects -/

/-- Observable actions of a run, in the order they happen. -/
inductive Event where
  | threadLaunched (i : Nat)
  | errInvalidDest (dest_ip : String)
  | socketCall (ret : Int)
  | errSocket
  | errInvalidSource (ip : String)
  | setsockoptFreebind (sock : Int) (ret : Int)
  | warnFreebind
  | bindCall (sock : Int) (ip : String) (ret : Int)
  | errBind (ip : String)
  | stdoutSending (message : String)
  | sendtoCall (sock : Int) (message : String) (dest_ip : String) (dest_port : Int)
  | sleepFor (ms : Int)
  | closeCall (sock : Int)
  | threadJoined (i : Nat)
  deriving DecidableEq, Repr

/-- State of the process seen from outside: the descriptors that are open, the
events so far, the random engines. -/
structure World where
  openHandles : List Int
  trace : List Event
  rng : Rng

/-- Append an event to the trace. -/
def World.emit (w : World) (e : Event) : World :=
  { openHandles := w.openHandles, trace := w.trace ++ [e], rng := w.rng }

/-- Replace the engines. -/
def World.setRng (w : World) (r : Rng) : World :=
  { openHandles := w.openHandles, trace := w.trace, rng := r }

/-- What the environment answers during one iteration of the send loop:
`socket` is the new descriptor (`none`: the call fails), the return values of
`setsockopt` and `bind`, and the local time. -/
structure Step where
  socket : Option Nat
  setsockopt_ret : Int
  bind_ret : Int
  now : Tm

/-- Return value of `socket(AF_INET, SOCK_DGRAM, 0)`: the descriptor, or -1. -/
def socketRet : Option Nat → Int
  | none => -1
  | some fd => (fd : Int)

/-- The call `socket(...)`: a successful call opens the descriptor. -/
def World.socket (w : World) (s : Option Nat) : World :=
  { openHandles :=
      (match s with
       | none => w.openHandles
       | some fd => (fd : Int) :: w.openHandles),
    trace := w.trace ++ [Event.socketCall (socketRet s)],
    rng := w.rng }

/-- The call `close(sock)`. -/
def World.close (w : World) (sock : Int) : World :=
  { openHandles := w.openHandles.erase sock,
    trace := w.trace ++ [Event.closeCall sock],
    rng := w.rng }

/-- Number of open descriptors. -/
def World.handleCount (w : World) : Nat := w.openHandles.length

/-- The payload of a call of `sendto`. -/
def Event.datagram? : Event → Option String
  | Event.sendtoCall _ m _ _ => some m
  | _ => none

/-- The datagrams handed to `sendto`, in order. -/
def datagrams (t : List Event) : List String := t.filterMap Event.datagram?

/-- Is the event a call of `socket`? -/
def Event.isSocket : Event → Bool
  | Event.socketCall _ => true
  | _ => false

/-- Is the event a call of `bind`? -/
def Event.isBind : Event → Bool
  | Event.bindCall _ _ _ => true
  | _ => false

/-- Is the event the report of a skipped send (the three `continue` paths)? -/
def Event.isSkip : Event → Bool
  | Event.errSocket => true
  | Event.errInvalidSource _ => true
  | Event.errBind _ => true
  | _ => false

/-- Is the event the start of a thread? -/
def Event.isLaunch : Event → Bool
  | Event.threadLaunched _ => true
  | _ => false

/-- Is the event the report of an invalid destination? -/
def Event.isInvalidDest : Event → Bool
  | Event.errInvalidDest _ => true
  | _ => false

/-! ## The worker (lambda in main, lines 301-356) -/

/-- The values captured by the worker lambda, and `num_messages`, `num_threads`
of main. -/
structure Config where
  dest_ip : String
  dest_port : Int
  num_messages : Int
  num_threads : Int
  sourceIpString : String
  delay_ms : Int

/-- Lines 320-324: `currentSourceIp` and the global engine after the draw. -/
def currentSourceIp (env : Env) (sourceIpString : String) (P : Pools) (gen : Mt19937) :
    String × Mt19937 :=
  if P.source_ips.isEmpty = false then
    (P.source_ips.getD (env.distrib.sample 0 (P.source_ips.length - 1) gen).1 "",
      (env.distrib.sample 0 (P.source_ips.length - 1) gen).2)
  else (sourceIpString, gen)

/-- Maps to sendSyslogMessage(sock, addr): compose, print, `sendto`. -/
def sendSyslogMessage (env : Env) (cfg : Config) (P : Pools) (now : Tm) (sock : Int)
    (w : World) : World :=
  let m := getSyslogMessage env P now w.rng
  (((w.setRng m.2).emit (Event.stdoutSending m.1)).emit
    (Event.sendtoCall sock m.1 cfg.dest_ip cfg.dest_port))

/-- Lines 350-354: send, optional sleep, `close(sock)`. -/
def sendAndClose (env : Env) (cfg : Config) (P : Pools) (st : Step) (sock : Int)
    (w : World) : World :=
  let w1 := sendSyslogMessage env cfg P st.now sock w
  let w2 := if cfg.delay_ms > 0 then w1.emit (Event.sleepFor cfg.delay_ms) else w1
  w2.close sock

/-- Lines 326-348 after a non-empty `currentSourceIp` was chosen: parse it, request
`IP_FREEBIND`, bind; then the common tail. -/
def bindAndSend (env : Env) (cfg : Config) (P : Pools) (st : Step) (sock : Int)
    (ip : String) (w : World) : World :=
  if env.inet_pton ip ≤ 0 then
    (w.emit (Event.errInvalidSource ip)).close sock
  else
    let w1 := w.emit (Event.setsockoptFreebind sock st.setsockopt_ret)
    let w2 := if st.setsockopt_ret = -1 then w1.emit Event.warnFreebind else w1
    let w3 := w2.emit (Event.bindCall sock ip st.bind_ret)
    if st.bind_ret = -1 then
      (w3.emit (Event.errBind ip)).close sock
    else sendAndClose env cfg P st sock w3

/-- One iteration of the send loop (body of `for (int j = 0; ...)`,
lines 314-354). -/
def sendIteration (env : Env) (cfg : Config) (P : Pools) (st : Step) (w : World) : World :=
  let sock := socketRet st.socket
  let w1 := w.socket st.socket
  if sock = -1 then w1.emit Event.errSocket
  else
    let pick := currentSourceIp env cfg.sourceIpString P w1.rng.gen
    let w2 := w1.setRng { gen := pick.2, gen_str := w1.rng.gen_str }
    if pick.1.isEmpty = false then bindAndSend env cfg P st sock pick.1 w2
    else sendAndClose env cfg P st sock w2

/-- The loop `for (int j = 0; j < num_messages_for_thread; ++j)`: `k` iterations
are left, the next one has index `j`. -/
def sendLoop (env : Env) (cfg : Config) (P : Pools) (steps : Nat → Step) :
    Nat → Nat → World → World
  | 0, _, w => w
  | k + 1, j, w => sendLoop env cfg P steps k (j + 1) (sendIteration env cfg P (steps j) w)

/-- The worker lambda: check the destination, then run the loop `quota` times
(`quota` is the captured `int num_messages_for_thread`).  `gen_str` is the
thread-local engine of the thread. -/
def worker (env : Env) (cfg : Config) (P : Pools) (quota : Int) (steps : Nat → Step)
    (gen_str : Mt19937) (w : World) : World :=
  if env.inet_pton cfg.dest_ip ≤ 0 then w.emit (Event.errInvalidDest cfg.dest_ip)
  else
    sendLoop env cfg P steps (loopCount quota) 0
      (w.setRng { gen := w.rng.gen, gen_str := gen_str })

/-! ## Throughput (main, lines 365-379) -/

/-- Values of a `double` (IEEE 754 binary64): a zero with its sign, a non-zero
finite number given by its exact value, an infinity with its sign, or a NaN. -/
inductive F64 where
  | zero (negative : Bool)
  | finite (q : ℚ)
  | inf (negative : Bool)
  | nan
  deriving DecidableEq

/-- The integer nearest to `x ≥ 0`, a tie going to the even one. -/
def roundHalfEven (x : ℚ) : Int :=
  if x - ⌊x⌋ < 1 / 2 then ⌊x⌋
  else if 1 / 2 < x - ⌊x⌋ then ⌊x⌋ + 1
  else if ⌊x⌋ % 2 = 0 then ⌊x⌋
  else ⌊x⌋ + 1

/-- Exponent of the binary64 spacing at `q ≠ 0`: the floats around `q` are the
multiples of `2 ^ ulpExponent q`.  The significand has 53 bits, and below
`2 ^ (-1022)` (subnormal range) the spacing stays `2 ^ (-1074)`. -/
def ulpExponent (q : ℚ) : Int := max (Int.log 2 |q|) (-1022) - 52

/-- The magnitude of `q ≠ 0` rounded to a multiple of the spacing. -/
def roundedMagnitude (q : ℚ) : ℚ :=
  (roundHalfEven (|q| / 2 ^ ulpExponent q) : ℚ) * 2 ^ ulpExponent q

/-- Rounding of the exact value `q` to `double`, to nearest with ties to even (the
default rounding mode).  An exact zero gives `+0`; a magnitude that rounds
to 0 underflows to the zero of the sign of `q`, one that rounds to `2 ^ 1024`
overflows to the infinity of that sign. -/
def F64.round (q : ℚ) : F64 :=
  if q = 0 then F64.zero false
  else if roundedMagnitude q = 0 then F64.zero (decide (q < 0))
  else if 2 ^ (1024 : Int) ≤ roundedMagnitude q then F64.inf (decide (q < 0))
  else F64.finite (if q < 0 then -roundedMagnitude q else roundedMagnitude q)

/-- Maps to `static_cast<double>(n)` for an integer `n`. -/
def F64.ofInt (n : Int) : F64 := F64.round (n : ℚ)

/-- IEEE 754 division `a / b` on `F64`: the exact quotient of two non-zero finite
values, rounded; the sign of a zero or infinite result is the exclusive or of
the signs of the operands. -/
def F64.div : F64 → F64 → F64
  | F64.nan, _ => F64.nan
  | _, F64.nan => F64.nan
  | F64.inf _, F64.inf _ => F64.nan
  | F64.zero _, F64.zero _ => F64.nan
  | F64.inf s, F64.zero t => F64.inf (s != t)
  | F64.inf s, F64.finite b => F64.inf (s != decide (b < 0))
  | F64.zero s, F64.inf t => F64.zero (s != t)
  | F64.finite a, F64.inf t => F64.zero (decide (a < 0) != t)
  | F64.zero s, F64.finite b => F64.zero (s != decide (b < 0))
  | F64.finite a, F64.zero t => F64.inf (decide (a < 0) != t)
  | F64.finite a, F64.finite b => F64.round (a / b)

/-- Is the value an infinity or a NaN (a value that is no number of messages
per second)? -/
def F64.isSpecial : F64 → Bool
  | F64.zero _ => false
  | F64.finite _ => false
  | _ => true

/-- Value of `duration.count()` (line 367): `duration_cast<duration<double>>` of the
clock difference `end_time - start_time`, a count of nanosecond ticks, is
`static_cast<double>(count) / static_cast<double>(1000000000)`.  The divisor
`10 ^ 9` is a `double`. -/
def durationCount (elapsed_ns : Int) : F64 :=
  F64.div (F64.ofInt elapsed_ns) (F64.finite 1000000000)

/-- Line 370:
`double messages_per_second = static_cast<double>(num_messages) / duration.count();`. -/
def messages_per_second (num_messages : Int) (elapsed_ns : Int) : F64 :=
  F64.div (F64.ofInt num_messages) (durationCount elapsed_ns)

/-! ## main from line 286 on (arguments parsed, files loaded) -/

/-- What the environment answers during a run: the system-call results of
iteration `j` of thread `i`, the thread-local engine of thread `i`, the clock
difference between start and end. -/
structure Oracle where
  step : Nat → Nat → Step
  threadGen : Nat → Mt19937
  elapsed_ns : Int

/-- The loop `for (int i = 0; i < num_threads; ++i)` of lines 295-357: `k` threads
are left to launch, the next one has index `i`.  A launched thread is run to
its end before the next is launched. -/
def launchLoop (env : Env) (cfg : Config) (P : Pools) (orc : Oracle) :
    Nat → Nat → World → World
  | 0, _, w => w
  | k + 1, i, w =>
    launchLoop env cfg P orc k (i + 1)
      (worker env cfg P (num_messages_for_thread cfg.num_messages cfg.num_threads (i : Int))
        (orc.step i) (orc.threadGen i) (w.emit (Event.threadLaunched i)))

/-- The loop `for (auto& thread : threads) thread.join();`. -/
def joinLoop : Nat → Nat → World → World
  | 0, _, w => w
  | k + 1, i, w => joinLoop k (i + 1) (w.emit (Event.threadJoined i))

/-- Result of main: the final world, the printed throughput and the exit status. -/
structure RunResult where
  world : World
  messages_per_second : F64
  exitStatus : Int

/-- Maps to main, lines 286-381.  `none`: the integer division of line 291 is
undefined (`num_threads = 0`, or `LONG_MIN / -1`). -/
def main (env : Env) (cfg : Config) (P : Pools) (orc : Oracle) (w : World) :
    Option RunResult :=
  if cfg.num_threads = 0 ∨ (cfg.num_messages = LONG_MIN ∧ cfg.num_threads = -1) then none
  else
    let w1 := launchLoop env cfg P orc (loopCount cfg.num_threads) 0 w
    let w2 := joinLoop (loopCount cfg.num_threads) 0 w1
    some { world := w2,
           messages_per_second := messages_per_second cfg.num_messages orc.elapsed_ns,
           exitStatus := 0 }

/-! ## Concrete inputs used to evaluate the model -/

/-- An engine returning the values `1234567 * k + 89`. -/
def sampleGen : Mt19937 := { outputs := fun k => 1234567 * k + 89, pos := 0 }

/-- A distribution meeting the contract: one engine value, reduced into the range. -/
def modDistribution : UniformIntDistribution where
  sample := fun a b g => (a + g.next.1 % (b - a + 1), g.next.2)
  lower := fun a b g _ => Nat.le_add_right a _
  upper := fun a b g h => by
    have h1 : g.next.1 % (b - a + 1) < b - a + 1 := Nat.mod_lt _ (Nat.succ_pos _)
    show a + g.next.1 % (b - a + 1) ≤ b
    omega

/-- Value of one decimal field of a dotted quad: digits only, at most three,
value at most 255. -/
def octet? (cs : List Char) : Option Nat :=
  if cs ≠ [] ∧ cs.length ≤ 3 ∧ cs.all Char.isDigit then
    (if (cs.foldl (fun n c => 10 * n + (c.toNat - 48)) 0) ≤ 255 then
      some (cs.foldl (fun n c => 10 * n + (c.toNat - 48)) 0)
     else none)
  else none

/-- The fields of a string separated by the character `.`. -/
def dotFields : List Char → List (List Char)
  | [] => [[]]
  | c :: cs =>
    if c = '.' then [] :: dotFields cs
    else
      match dotFields cs with
      | [] => [[c]]
      | f :: fs => (c :: f) :: fs

/-- The documented behaviour of `inet_pton(AF_INET, s, _)`: 1 when `s` has the form
`ddd.ddd.ddd.ddd` with four decimal fields in `0 .. 255`, else 0. -/
def inet_pton4 (s : String) : Int :=
  if (dotFields s.data).length = 4 ∧ (dotFields s.data).all (fun f => (octet? f).isSome)
  then 1 else 0

/-- An environment with the documented address parser. -/
def sampleEnv : Env := { inet_pton := inet_pton4, distrib := modDistribution }

/-- Local time 2024-07-02 10:18:14 (a Tuesday, day 183 of the year, DST). -/
def sampleTm : Tm :=
  { tm_sec := 14, tm_min := 18, tm_hour := 10, tm_mday := 2, tm_mon := 6, tm_year := 124,
    tm_wday := 2, tm_yday := 183, tm_isdst := 1 }

/-- Every system call succeeds; descriptor 3 is returned. -/
def okStep : Step := { socket := some 3, setsockopt_ret := 0, bind_ret := 0, now := sampleTm }

/-- An oracle where every call succeeds and the run takes one second. -/
def okOracle : Oracle :=
  { step := fun _ _ => okStep, threadGen := fun _ => sampleGen, elapsed_ns := 1000000000 }

/-- The world at line 286: nothing open, nothing observed. -/
def initialWorld : World :=
  { openHandles := [], trace := [], rng := { gen := sampleGen, gen_str := sampleGen } }

/-- No files were given. -/
def noPools : Pools := { syslogMessages := [], hostnames := [], source_ips := [] }

/-! ## Quantities read off a trace -/

/-- Number of datagrams handed to `sendto`. -/
def sends (t : List Event) : Nat := (datagrams t).length

/-- Number of skipped sends. -/
def skips (t : List Event) : Nat := t.countP Event.isSkip

/-- Number of calls of `socket`, one per iteration of a send loop. -/
def socketCalls (t : List Event) : Nat := t.countP Event.isSocket

/-- Number of calls of `bind`. -/
def bindCalls (t : List Event) : Nat := t.countP Event.isBind

/-- Number of threads launched. -/
def launches (t : List Event) : Nat := t.countP Event.isLaunch

/-- Number of reports of an invalid destination, one per failed check. -/
def invalidDestReports (t : List Event) : Nat := t.countP Event.isInvalidDest

/-- Events of lines 337-341: the `IP_FREEBIND` request and its warning. -/
def freebindEvents (sock : Int) (st : Step) : List Event :=
  Event.setsockoptFreebind sock st.setsockopt_ret ::
    (if st.setsockopt_ret = -1 then [Event.warnFreebind] else [])

/-- The events of `k` loop iterations: `k` calls of `socket`, each ending in a
send or a skip, no thread launch and no destination report. -/
def IterationEvents (k : Nat) (evs : List Event) : Prop :=
  socketCalls evs = k ∧ sends evs + skips evs = k ∧ launches evs = 0 ∧
    invalidDestReports evs = 0

/-- The events an iteration started in `w` has added when it ends in `w2`. -/
def newEvents (w w2 : World) : List Event := w2.trace.drop w.trace.length

/-- The reading "the socket is bound exactly when the effective source address
is not empty", for one iteration started in `w`. -/
def BoundIffNonempty (env : Env) (cfg : Config) (P : Pools) (st : Step) (w : World) : Prop :=
  0 < bindCalls (newEvents w (sendIteration env cfg P st w)) ↔
    (currentSourceIp env cfg.sourceIpString P w.rng.gen).1 ≠ ""

/-- The reading "an invalid destination aborts the run before any thread is
launched, after a single check", for one run. -/
def AbortsBeforeDispatch (env : Env) (cfg : Config) (P : Pools) (orc : Oracle) (w : World) :
    Prop :=
  ∀ r, main env cfg P orc w = some r →
    launches (newEvents w r.world) = 0 ∧ invalidDestReports (newEvents w r.world) ≤ 1

/-- A run configuration with the destination `127.0.0.1:5140`. -/
def sampleConfig (num_messages num_threads : Int) (sourceIpString : String) : Config :=
  { dest_ip := "127.0.0.1", dest_port := 5140, num_messages := num_messages,
    num_threads := num_threads, sourceIpString := sourceIpString, delay_ms := 0 }

/-- A run configuration with a destination that is no address. -/
def badDestConfig (num_messages num_threads : Int) : Config :=
  { dest_ip := "not-an-address", dest_port := 5140, num_messages := num_messages,
    num_threads := num_threads, sourceIpString := "", delay_ms := 0 }

/-- The character of the decimal digit `n`. -/
def digit (n : Nat) : Char := Char.ofNat (48 + n)

/-- The reading "a run of zero messages reports the undefined sentinel as its
throughput", for one run. -/
def ZeroTotalUndefined (env : Env) (cfg : Config) (P : Pools) (orc : Oracle) (w : World) :
    Prop :=
  ∀ r, main env cfg P orc w = some r → cfg.num_messages = 0 →
    r.messages_per_second.isSpecial = true

/-- The reading "an iteration whose effective source address is syntactically
invalid transmits no datagram", for one iteration started in `w`. -/
def InvalidSourceNotSent (env : Env) (cfg : Config) (P : Pools) (st : Step) (w : World) :
    Prop :=
  env.inet_pton (currentSourceIp env cfg.sourceIpString P w.rng.gen).1 ≤ 0 →
    datagrams (sendIteration env cfg P st w).trace = datagrams w.trace

/-- The pools after loading a source-address file that holds one blank line. -/
def blankSourcePool : Pools := { syslogMessages := [], hostnames := [], source_ips := [""] }

/-! ## The character draw (generateRandomString, lines 48-52) -/

/-- The character a generator value `x` is mapped to by line 52:
`alphanum[x % (sizeof(alphanum) - 1)]`. -/
def charOfOutput (x : Nat) : Char :=
  alphanum.getD (x % (sizeofAlphanum - 1)) (Char.ofNat 0)

/-- The symbols a draw can return: the elements of `alphanum` at the indices
`0 .. sizeof(alphanum) - 2`. -/
def alphabet : List Char := alphanum.take (sizeofAlphanum - 1)

/-- Number of the `2^32` generator values `0 .. 2^32 - 1` that are mapped to the
character `c`. -/
def preimageCount (c : Char) : Nat :=
  Nat.count (fun x => charOfOutput x = c) 4294967296

/-- The reading "the draw is uniform": all symbols of the alphabet have the same
number of preimages among the `2^32` generator values. -/
def DrawUniform : Prop :=
  ∀ c ∈ alphabet, ∀ d ∈ alphabet, preimageCount c = preimageCount d

/-! # Theorems -/

/-! ## Arithmetic of the partition -/

theorem toInt32_of_range (x : Int) (h0 : 0 ≤ x) (h1 : x ≤ INT_MAX) : toInt32 x = x := by
  unfold toInt32 INT_MAX at *
  omega

theorem tdiv_tmod_nonneg (a b : Int) (ha : 0 ≤ a) (hb : 0 < b) :
    0 ≤ Int.tdiv a b ∧ 0 ≤ Int.tmod a b ∧ Int.tmod a b < b ∧
      b * Int.tdiv a b + Int.tmod a b = a := by
  rw [Int.tdiv_eq_ediv ha (le_of_lt hb), Int.tmod_eq_emod ha (le_of_lt hb)]
  refine ⟨Int.ediv_nonneg ha (le_of_lt hb), Int.emod_nonneg _ (ne_of_gt hb),
    Int.emod_lt_of_pos _ hb, ?_⟩
  have := Int.emod_add_ediv a b
  linarith

/-- When the last thread's `long` quota fits in `int`, the quotas are
`num_threads - 1` copies of the quotient followed by quotient plus remainder. -/
theorem perWorkerQuota_of_fit (total n : Int) (ht : 0 ≤ total) (hn : 0 < n)
    (hfit : messages_per_thread total n + remainder total n ≤ INT_MAX) :
    perWorkerQuota total n =
      List.replicate (loopCount n - 1) (messages_per_thread total n) ++
        [messages_per_thread total n + remainder total n] := by
  obtain ⟨hq, hr, _, _⟩ := tdiv_tmod_nonneg total n ht hn
  obtain ⟨k, hk⟩ : ∃ k : Nat, loopCount n = k + 1 :=
    ⟨loopCount n - 1, by unfold loopCount; omega⟩
  have hkn : (k : Int) = n - 1 := by unfold loopCount at hk; omega
  unfold perWorkerQuota
  rw [hk, List.range_succ, List.map_append]
  congr 1
  · rw [Nat.add_sub_cancel, List.eq_replicate_iff]
    refine ⟨by simp, ?_⟩
    intro x hx
    obtain ⟨i, hi, rfl⟩ := List.mem_map.mp hx
    have hik : i < k := List.mem_range.mp hi
    have hne : ¬ ((i : Int) = n - 1) := by omega
    unfold num_messages_for_thread quotaLong
    rw [if_neg hne]
    apply toInt32_of_range
    · exact hq
    · unfold messages_per_thread remainder at *; omega
  · simp only [List.map_cons, List.map_nil]
    unfold num_messages_for_thread quotaLong
    rw [if_pos hkn]
    rw [toInt32_of_range _ (by unfold messages_per_thread remainder at *; omega) hfit]

/-- In the range where no quota is truncated, the quotas add up to the total and
there is one per thread. -/
theorem perWorkerQuota_sum_of_fit (total n : Int) (ht : 0 ≤ total) (hn : 0 < n)
    (hfit : messages_per_thread total n + remainder total n ≤ INT_MAX) :
    (perWorkerQuota total n).sum = total ∧
      ((perWorkerQuota total n).length : Int) = n := by
  obtain ⟨hq, hr, _, hsum⟩ := tdiv_tmod_nonneg total n ht hn
  constructor
  · rw [perWorkerQuota_of_fit total n ht hn hfit]
    simp only [List.sum_append, List.sum_replicate, List.sum_cons, List.sum_nil, smul_eq_mul,
      nsmul_eq_mul]
    have hk : ((loopCount n - 1 : Nat) : Int) = n - 1 := by unfold loopCount; omega
    rw [hk]
    unfold messages_per_thread remainder
    linarith
  · unfold perWorkerQuota
    simp only [List.length_map, List.length_range]
    unfold loopCount; omega

/-- C1, evaluated at `num_messages = 4294967296`, `num_threads = 1`: one thread is
launched and its `long` quota is 4294967296, but the `int`
`num_messages_for_thread` its loop iterates over is 0, so the quotas iterated
over add up to 0 and not to the total. -/
theorem partition_sum_truncated :
    (perWorkerQuota 4294967296 1).length = 1 ∧
      quotaLong 4294967296 1 0 = 4294967296 ∧
      perWorkerQuota 4294967296 1 = [0] ∧
      ((perWorkerQuota 4294967296 1).map loopCount).sum = 0 ∧
      (perWorkerQuota 4294967296 1).sum ≠ 4294967296 := by
  decide

/-- In the range where no quota is truncated: every thread but the last gets the
quotient, the last gets quotient plus remainder, and the remainder is at most
`num_threads - 1`. -/
theorem perWorkerQuota_placement_of_fit (total n : Int) (ht : 0 ≤ total) (hn : 0 < n)
    (hfit : messages_per_thread total n + remainder total n ≤ INT_MAX) :
    (∀ i : Nat, (i : Int) < n - 1 →
        num_messages_for_thread total n i = total / n) ∧
      num_messages_for_thread total n (n - 1) = total / n + total % n ∧
      total % n ≤ n - 1 := by
  obtain ⟨hq, hr, hlt, _⟩ := tdiv_tmod_nonneg total n ht hn
  have hd : Int.tdiv total n = total / n := Int.tdiv_eq_ediv ht (le_of_lt hn)
  have hm : Int.tmod total n = total % n := Int.tmod_eq_emod ht (le_of_lt hn)
  refine ⟨?_, ?_, ?_⟩
  · intro i hi
    have hne : ¬ ((i : Int) = n - 1) := by omega
    unfold num_messages_for_thread quotaLong
    rw [if_neg hne]
    unfold messages_per_thread remainder at *
    rw [toInt32_of_range _ hq (by omega), hd]
  · unfold num_messages_for_thread quotaLong
    rw [if_pos rfl]
    unfold messages_per_thread remainder at *
    rw [toInt32_of_range _ (by omega) hfit, hd, hm]
  · rw [← hm]; omega

/-- C2, evaluated.  The quotas for 10 messages on 3 threads are `[3, 3, 4]` and
for 0 messages all 0, as the claim says; but for
`num_messages = 8589934592`, `num_threads = 2` the quotient is 4294967296
while the first (not last) thread gets the `int` quota 0, and so does the
last. -/
theorem placement_quota_truncated :
    perWorkerQuota 10 3 = [3, 3, 4] ∧
      perWorkerQuota 0 3 = [0, 0, 0] ∧
      (8589934592 : Int) / 2 = 4294967296 ∧
      messages_per_thread 8589934592 2 = 4294967296 ∧
      remainder 8589934592 2 = 0 ∧
      num_messages_for_thread 8589934592 2 0 = 0 ∧
      perWorkerQuota 8589934592 2 = [0, 0] := by
  decide

/-! ## Message composition -/

theorem pri_eq : pri = 11 := by decide

/-- C3.  For every pool state, local time and engine state, the text returned by
getSyslogMessage is `"<11>" ++ ts ++ " " ++ h ++ " sysloggen: " ++ b ++ "\n"`,
with `ts` the formatted timestamp, `h` the selected hostname and `b` the
selected body; the priority is `1 * 8 + 3 = 11`, the tag is `"sysloggen"`, and
the last character is the newline. -/
theorem getSyslogMessage_wire_format (env : Env) (P : Pools) (now : Tm) (r : Rng) :
    (getSyslogMessage env P now r).1 =
        "<11>" ++ generateRFC3164Timestamp now ++ " " ++
          (currentHostname env P (messageContent env P r).2).1 ++ " sysloggen: " ++
          (messageContent env P r).1 ++ "\n" ∧
      (getSyslogMessage env P now r).1 =
        "<" ++ toString pri ++ ">" ++ generateRFC3164Timestamp now ++ " " ++
          (currentHostname env P (messageContent env P r).2).1 ++ " " ++ app_tag ++ ": " ++
          (messageContent env P r).1 ++ "\n" ∧
      pri = 1 * 8 + 3 ∧ toString pri = "11" ∧ app_tag = "sysloggen" ∧
      (getSyslogMessage env P now r).1.data.getLast? = some (Char.ofNat 10) := by
  have hp : toString pri = "11" := by decide
  refine ⟨?_, rfl, by decide, hp, rfl, ?_⟩
  · show "<" ++ toString pri ++ ">" ++ _ ++ " " ++ _ ++ " " ++ app_tag ++ ": " ++ _ ++ "\n" = _
    rw [hp]
    simp only [app_tag, String.append_assoc]
    rfl
  · show ("<" ++ toString pri ++ ">" ++ _ ++ " " ++ _ ++ " " ++ app_tag ++ ": " ++ _
      ++ "\n").data.getLast? = _
    rw [String.data_append]
    exact List.getLast?_concat _

theorem generateRandomChars_length (n : Nat) (g : Mt19937) :
    (generateRandomChars n g).1.length = n := by
  induction n generalizing g with
  | zero => rfl
  | succ k ih => simp [generateRandomChars, ih]

theorem alphanum_symbol :
    ∀ i < 63, (alphanum.getD i (Char.ofNat 0)).isDigit = true ∨
      (alphanum.getD i (Char.ofNat 0)).isAlpha = true ∨
      alphanum.getD i (Char.ofNat 0) = ' ' := by
  decide

theorem randomChar_symbol (g : Mt19937) :
    (randomChar g).1.isDigit = true ∨ (randomChar g).1.isAlpha = true ∨
      (randomChar g).1 = ' ' := by
  have hs : sizeofAlphanum - 1 = 63 := by decide
  unfold randomChar
  rw [hs]
  exact alphanum_symbol _ (Nat.mod_lt _ (by decide))

theorem generateRandomChars_symbols (n : Nat) (g : Mt19937) :
    ∀ c ∈ (generateRandomChars n g).1,
      c.isDigit = true ∨ c.isAlpha = true ∨ c = ' ' := by
  induction n generalizing g with
  | zero => intro c hc; simp [generateRandomChars] at hc
  | succ k ih =>
    intro c hc
    simp only [generateRandomChars, List.mem_cons] at hc
    rcases hc with rfl | hc
    · exact randomChar_symbol g
    · exact ih _ c hc

theorem getD_mem_of_lt (l : List String) (k : Nat) (hk : k < l.length) :
    l.getD k "" ∈ l := by
  rw [List.getD_eq_getElem l "" hk]
  exact List.getElem_mem hk

theorem draw_mem (env : Env) (l : List String) (g : Mt19937) (hl : l ≠ []) :
    l.getD (env.distrib.sample 0 (l.length - 1) g).1 "" ∈ l := by
  apply getD_mem_of_lt
  have h := env.distrib.upper 0 (l.length - 1) g (Nat.zero_le _)
  have hpos : 0 < l.length := List.length_pos.mpr hl
  omega

/-- C4.  For every engine state and every distribution: with an empty message
pool the body has exactly 50 characters, each a digit, an ASCII letter or a
space; with a non-empty pool the body is one of its entries (for the pool
`["a", "b"]` it is `"a"` or `"b"`); the hostname is an entry of a non-empty
hostname pool and `"myhost"` for an empty one. -/
theorem getSyslogMessage_field_selection (env : Env) (P : Pools) (r : Rng) :
    (P.syslogMessages = [] →
        (messageContent env P r).1.length = 50 ∧
          ∀ c ∈ (messageContent env P r).1.data,
            c.isDigit = true ∨ c.isAlpha = true ∨ c = ' ') ∧
      (P.syslogMessages ≠ [] → (messageContent env P r).1 ∈ P.syslogMessages) ∧
      (P.syslogMessages = ["a", "b"] →
        (messageContent env P r).1 = "a" ∨ (messageContent env P r).1 = "b") ∧
      (P.hostnames ≠ [] → (currentHostname env P r).1 ∈ P.hostnames) ∧
      (P.hostnames = [] → (currentHostname env P r).1 = "myhost") := by
  have hbody : P.syslogMessages ≠ [] → (messageContent env P r).1 ∈ P.syslogMessages := by
    intro h
    have he : P.syslogMessages.isEmpty = false := by
      cases hm : P.syslogMessages with
      | nil => exact absurd hm h
      | cons a l => rfl
    unfold messageContent
    rw [if_pos he]
    exact draw_mem env _ _ h
  refine ⟨?_, hbody, ?_, ?_, ?_⟩
  · intro h
    unfold messageContent
    rw [h]
    simp only [List.isEmpty_nil, Bool.true_eq_false, if_false]
    exact ⟨generateRandomChars_length 50 _, generateRandomChars_symbols 50 _⟩
  · intro h
    have hm := hbody (by rw [h]; simp)
    rw [h] at hm
    simpa using hm
  · intro h
    have he : P.hostnames.isEmpty = false := by
      cases hm : P.hostnames with
      | nil => exact absurd hm h
      | cons a l => rfl
    unfold currentHostname
    rw [if_pos he]
    exact draw_mem env _ _ h
  · intro h
    unfold currentHostname
    rw [h]
    rfl

/-- C4 at concrete inputs: no pools, and the pools `["a", "b"]` and `["h1"]`. -/
theorem getSyslogMessage_field_selection_witness :
    ((messageContent sampleEnv noPools initialWorld.rng).1.length = 50 ∧
        (currentHostname sampleEnv noPools initialWorld.rng).1 = "myhost") ∧
      ((messageContent sampleEnv
            { syslogMessages := ["a", "b"], hostnames := ["h1"], source_ips := [] }
            initialWorld.rng).1 = "a" ∨
        (messageContent sampleEnv
            { syslogMessages := ["a", "b"], hostnames := ["h1"], source_ips := [] }
            initialWorld.rng).1 = "b") ∧
      (currentHostname sampleEnv
          { syslogMessages := ["a", "b"], hostnames := ["h1"], source_ips := [] }
          initialWorld.rng).1 ∈ ["h1"] :=
  ⟨⟨((getSyslogMessage_field_selection sampleEnv noPools initialWorld.rng).1 rfl).1,
      (getSyslogMessage_field_selection sampleEnv noPools initialWorld.rng).2.2.2.2 rfl⟩,
    (getSyslogMessage_field_selection sampleEnv
      { syslogMessages := ["a", "b"], hostnames := ["h1"], source_ips := [] }
      initialWorld.rng).2.2.1 rfl,
    (getSyslogMessage_field_selection sampleEnv
      { syslogMessages := ["a", "b"], hostnames := ["h1"], source_ips := [] }
      initialWorld.rng).2.2.2.1 (by decide)⟩

/-! ## The five paths through one iteration of the send loop -/

theorem socketRet_some_ne (fd : Nat) : ¬ (socketRet (some fd) = -1) := by
  show ¬ ((fd : Int) = -1)
  omega

/-- Events of lines 350-354 for the descriptor `sock`. -/
theorem sendAndClose_eq (env : Env) (cfg : Config) (P : Pools) (st : Step) (sock : Int)
    (w : World) :
    sendAndClose env cfg P st sock w =
      { openHandles := w.openHandles.erase sock,
        trace := w.trace ++
          ([Event.stdoutSending (getSyslogMessage env P st.now w.rng).1,
            Event.sendtoCall sock (getSyslogMessage env P st.now w.rng).1 cfg.dest_ip
              cfg.dest_port] ++
            (if cfg.delay_ms > 0 then [Event.sleepFor cfg.delay_ms] else []) ++
            [Event.closeCall sock]),
        rng := (getSyslogMessage env P st.now w.rng).2 } := by
  unfold sendAndClose sendSyslogMessage
  by_cases hd : cfg.delay_ms > 0 <;>
    simp [hd, World.emit, World.close, World.setRng]

/-- Path 1: `socket` fails. -/
theorem sendIteration_socket_failed (env : Env) (cfg : Config) (P : Pools) (st : Step)
    (w : World) (hs : st.socket = none) :
    sendIteration env cfg P st w =
      { openHandles := w.openHandles,
        trace := w.trace ++ [Event.socketCall (-1), Event.errSocket],
        rng := w.rng } := by
  unfold sendIteration
  simp [hs, socketRet, World.socket, World.emit]

/-- Path 2: the chosen source address is not empty and does not parse. -/
theorem sendIteration_invalid_source (env : Env) (cfg : Config) (P : Pools) (st : Step)
    (w : World) (fd : Nat) (hs : st.socket = some fd)
    (hne : (currentSourceIp env cfg.sourceIpString P w.rng.gen).1.isEmpty = false)
    (hbad : env.inet_pton (currentSourceIp env cfg.sourceIpString P w.rng.gen).1 ≤ 0) :
    sendIteration env cfg P st w =
      { openHandles := w.openHandles,
        trace := w.trace ++
          [Event.socketCall fd,
            Event.errInvalidSource (currentSourceIp env cfg.sourceIpString P w.rng.gen).1,
            Event.closeCall fd],
        rng := { gen := (currentSourceIp env cfg.sourceIpString P w.rng.gen).2,
                 gen_str := w.rng.gen_str } } := by
  unfold sendIteration
  simp [hs, socketRet_some_ne, World.socket, World.setRng, hne, bindAndSend, hbad,
    World.emit, World.close, socketRet]

/-- Path 3: the source address parses and `bind` fails. -/
theorem sendIteration_bind_failed (env : Env) (cfg : Config) (P : Pools) (st : Step)
    (w : World) (fd : Nat) (hs : st.socket = some fd)
    (hne : (currentSourceIp env cfg.sourceIpString P w.rng.gen).1.isEmpty = false)
    (hok : 0 < env.inet_pton (currentSourceIp env cfg.sourceIpString P w.rng.gen).1)
    (hb : st.bind_ret = -1) :
    sendIteration env cfg P st w =
      { openHandles := w.openHandles,
        trace := w.trace ++
          ([Event.socketCall fd] ++ freebindEvents fd st ++
            [Event.bindCall fd (currentSourceIp env cfg.sourceIpString P w.rng.gen).1
                st.bind_ret,
              Event.errBind (currentSourceIp env cfg.sourceIpString P w.rng.gen).1,
              Event.closeCall fd]),
        rng := { gen := (currentSourceIp env cfg.sourceIpString P w.rng.gen).2,
                 gen_str := w.rng.gen_str } } := by
  have hok2 : ¬ env.inet_pton (currentSourceIp env cfg.sourceIpString P w.rng.gen).1 ≤ 0 :=
    not_le.mpr hok
  unfold sendIteration
  by_cases hw : st.setsockopt_ret = -1 <;>
    simp [hs, socketRet_some_ne, World.socket, World.setRng, hne, bindAndSend, hok2, hb, hw,
      World.emit, World.close, socketRet, freebindEvents]

/-- Path 4: the source address parses, `bind` succeeds, the message is sent. -/
theorem sendIteration_bound_send (env : Env) (cfg : Config) (P : Pools) (st : Step)
    (w : World) (fd : Nat) (hs : st.socket = some fd)
    (hne : (currentSourceIp env cfg.sourceIpString P w.rng.gen).1.isEmpty = false)
    (hok : 0 < env.inet_pton (currentSourceIp env cfg.sourceIpString P w.rng.gen).1)
    (hb : ¬ st.bind_ret = -1) :
    sendIteration env cfg P st w =
      { openHandles := w.openHandles,
        trace := w.trace ++
          ([Event.socketCall fd] ++ freebindEvents fd st ++
            [Event.bindCall fd (currentSourceIp env cfg.sourceIpString P w.rng.gen).1
                st.bind_ret,
              Event.stdoutSending
                (getSyslogMessage env P st.now
                  { gen := (currentSourceIp env cfg.sourceIpString P w.rng.gen).2,
                    gen_str := w.rng.gen_str }).1,
              Event.sendtoCall fd
                (getSyslogMessage env P st.now
                  { gen := (currentSourceIp env cfg.sourceIpString P w.rng.gen).2,
                    gen_str := w.rng.gen_str }).1 cfg.dest_ip cfg.dest_port] ++
            (if cfg.delay_ms > 0 then [Event.sleepFor cfg.delay_ms] else []) ++
            [Event.closeCall fd]),
        rng := (getSyslogMessage env P st.now
                  { gen := (currentSourceIp env cfg.sourceIpString P w.rng.gen).2,
                    gen_str := w.rng.gen_str }).2 } := by
  have hok2 : ¬ env.inet_pton (currentSourceIp env cfg.sourceIpString P w.rng.gen).1 ≤ 0 :=
    not_le.mpr hok
  unfold sendIteration
  by_cases hw : st.setsockopt_ret = -1 <;>
    simp [hs, socketRet_some_ne, World.socket, World.setRng, hne, bindAndSend, hok2, hb, hw,
      World.emit, socketRet, freebindEvents, sendAndClose_eq]

/-- Path 5: no source address, the message is sent from an unbound socket. -/
theorem sendIteration_unbound_send (env : Env) (cfg : Config) (P : Pools) (st : Step)
    (w : World) (fd : Nat) (hs : st.socket = some fd)
    (he : ¬ (currentSourceIp env cfg.sourceIpString P w.rng.gen).1.isEmpty = false) :
    sendIteration env cfg P st w =
      { openHandles := w.openHandles,
        trace := w.trace ++
          ([Event.socketCall fd,
              Event.stdoutSending
                (getSyslogMessage env P st.now
                  { gen := (currentSourceIp env cfg.sourceIpString P w.rng.gen).2,
                    gen_str := w.rng.gen_str }).1,
              Event.sendtoCall fd
                (getSyslogMessage env P st.now
                  { gen := (currentSourceIp env cfg.sourceIpString P w.rng.gen).2,
                    gen_str := w.rng.gen_str }).1 cfg.dest_ip cfg.dest_port] ++
            (if cfg.delay_ms > 0 then [Event.sleepFor cfg.delay_ms] else []) ++
            [Event.closeCall fd]),
        rng := (getSyslogMessage env P st.now
                  { gen := (currentSourceIp env cfg.sourceIpString P w.rng.gen).2,
                    gen_str := w.rng.gen_str }).2 } := by
  unfold sendIteration
  simp [hs, socketRet_some_ne, World.socket, World.setRng, he, World.emit, socketRet,
    sendAndClose_eq]

/-! ## What one iteration, a loop and a thread add to the trace -/

theorem counts_append (a b : List Event) :
    sends (a ++ b) = sends a + sends b ∧ skips (a ++ b) = skips a + skips b ∧
      socketCalls (a ++ b) = socketCalls a + socketCalls b ∧
      bindCalls (a ++ b) = bindCalls a + bindCalls b ∧
      launches (a ++ b) = launches a + launches b ∧
      invalidDestReports (a ++ b) = invalidDestReports a + invalidDestReports b := by
  simp [sends, skips, socketCalls, bindCalls, launches, invalidDestReports, datagrams,
    List.filterMap_append, List.countP_append]

theorem IterationEvents.append {j k : Nat} {a b : List Event} (ha : IterationEvents j a)
    (hb : IterationEvents k b) : IterationEvents (j + k) (a ++ b) := by
  obtain ⟨a1, a2, a3, a4⟩ := ha
  obtain ⟨b1, b2, b3, b4⟩ := hb
  obtain ⟨c1, c2, c3, _, c5, c6⟩ := counts_append a b
  refine ⟨?_, ?_, ?_, ?_⟩ <;> omega

/-- Every iteration leaves the open descriptors as they were and adds the events
of exactly one iteration. -/
theorem sendIteration_effect (env : Env) (cfg : Config) (P : Pools) (st : Step) (w : World) :
    (sendIteration env cfg P st w).openHandles = w.openHandles ∧
      ∃ evs, (sendIteration env cfg P st w).trace = w.trace ++ evs ∧
        IterationEvents 1 evs ∧
        (st.socket ≠ none → cfg.sourceIpString = "" → P.source_ips = [] → sends evs = 1) := by
  cases hs : st.socket with
  | none =>
    rw [sendIteration_socket_failed env cfg P st w hs]
    exact ⟨rfl, _, rfl, by unfold IterationEvents; decide, fun h => absurd rfl h⟩
  | some fd =>
    by_cases hne : (currentSourceIp env cfg.sourceIpString P w.rng.gen).1.isEmpty = false
    · have hsrc : ¬ (cfg.sourceIpString = "" ∧ P.source_ips = []) := by
        rintro ⟨h1, h2⟩
        rw [currentSourceIp, h1, h2] at hne
        simp only [List.isEmpty_nil, Bool.true_eq_false, if_false] at hne
        exact absurd hne (by decide)
      by_cases hbad : env.inet_pton (currentSourceIp env cfg.sourceIpString P w.rng.gen).1 ≤ 0
      · rw [sendIteration_invalid_source env cfg P st w fd hs hne hbad]
        refine ⟨rfl, _, rfl, ?_, fun _ h1 h2 => absurd ⟨h1, h2⟩ hsrc⟩
        simp [IterationEvents, sends, skips, socketCalls, launches, invalidDestReports,
          datagrams, Event.isSkip, Event.isSocket, Event.isLaunch, Event.isInvalidDest,
          Event.datagram?]
      · by_cases hb : st.bind_ret = -1
        · rw [sendIteration_bind_failed env cfg P st w fd hs hne (not_le.mp hbad) hb]
          refine ⟨rfl, _, rfl, ?_, fun _ h1 h2 => absurd ⟨h1, h2⟩ hsrc⟩
          by_cases hw : st.setsockopt_ret = -1 <;>
            simp [IterationEvents, sends, skips, socketCalls, launches, invalidDestReports,
              datagrams, Event.isSkip, Event.isSocket, Event.isLaunch, Event.isInvalidDest,
              Event.datagram?, freebindEvents, hw]
        · rw [sendIteration_bound_send env cfg P st w fd hs hne (not_le.mp hbad) hb]
          refine ⟨rfl, _, rfl, ?_, fun _ h1 h2 => absurd ⟨h1, h2⟩ hsrc⟩
          by_cases hw : st.setsockopt_ret = -1 <;> by_cases hd : cfg.delay_ms > 0 <;>
            simp [IterationEvents, sends, skips, socketCalls, launches, invalidDestReports,
              datagrams, Event.isSkip, Event.isSocket, Event.isLaunch, Event.isInvalidDest,
              Event.datagram?, freebindEvents, hw, hd]
    · rw [sendIteration_unbound_send env cfg P st w fd hs hne]
      refine ⟨rfl, _, rfl, ?_, fun _ _ _ => ?_⟩ <;>
        by_cases hd : cfg.delay_ms > 0 <;>
          simp [IterationEvents, sends, skips, socketCalls, launches, invalidDestReports,
            datagrams, Event.isSkip, Event.isSocket, Event.isLaunch, Event.isInvalidDest,
            Event.datagram?, hd]

/-- The loop run `k` times leaves the open descriptors as they were and adds the
events of exactly `k` iterations. -/
theorem sendLoop_effect (env : Env) (cfg : Config) (P : Pools) (steps : Nat → Step)
    (k j : Nat) (w : World) :
    (sendLoop env cfg P steps k j w).openHandles = w.openHandles ∧
      ∃ evs, (sendLoop env cfg P steps k j w).trace = w.trace ++ evs ∧
        IterationEvents k evs ∧
        ((∀ i, (steps i).socket ≠ none) → cfg.sourceIpString = "" → P.source_ips = [] →
          sends evs = k) := by
  induction k generalizing j w with
  | zero =>
    exact ⟨rfl, [], by simp [sendLoop], by unfold IterationEvents; decide, fun _ _ _ => rfl⟩
  | succ k ih =>
    obtain ⟨h1, e1, ht1, hc1, hs1⟩ := sendIteration_effect env cfg P (steps j) w
    obtain ⟨h2, e2, ht2, hc2, hs2⟩ := ih (j + 1) (sendIteration env cfg P (steps j) w)
    refine ⟨?_, e1 ++ e2, ?_, ?_, ?_⟩
    · show (sendLoop env cfg P steps k (j + 1) _).openHandles = _
      rw [h2, h1]
    · show (sendLoop env cfg P steps k (j + 1) _).trace = _
      rw [ht2, ht1, List.append_assoc]
    · have := IterationEvents.append hc1 hc2
      rwa [Nat.add_comm] at this
    · intro ha hb hc
      rw [(counts_append e1 e2).1, hs1 (ha j) hb hc, hs2 ha hb hc, Nat.add_comm]

/-- A thread with a valid destination runs its loop `loopCount quota` times. -/
theorem worker_effect_valid (env : Env) (cfg : Config) (P : Pools) (quota : Int)
    (steps : Nat → Step) (g : Mt19937) (w : World) (hv : 0 < env.inet_pton cfg.dest_ip) :
    (worker env cfg P quota steps g w).openHandles = w.openHandles ∧
      ∃ evs, (worker env cfg P quota steps g w).trace = w.trace ++ evs ∧
        IterationEvents (loopCount quota) evs ∧
        ((∀ i, (steps i).socket ≠ none) → cfg.sourceIpString = "" → P.source_ips = [] →
          sends evs = loopCount quota) := by
  unfold worker
  rw [if_neg (not_le.mpr hv)]
  exact sendLoop_effect env cfg P steps (loopCount quota) 0 _

/-- A thread with an invalid destination reports it and returns. -/
theorem worker_invalid_dest (env : Env) (cfg : Config) (P : Pools) (quota : Int)
    (steps : Nat → Step) (g : Mt19937) (w : World) (hv : env.inet_pton cfg.dest_ip ≤ 0) :
    worker env cfg P quota steps g w = w.emit (Event.errInvalidDest cfg.dest_ip) := by
  unfold worker
  rw [if_pos hv]

/-- Iterations of the threads `i, i + 1, ..., i + k - 1` taken together. -/
theorem launchLoop_effect_valid (env : Env) (cfg : Config) (P : Pools) (orc : Oracle)
    (k i : Nat) (w : World) (hv : 0 < env.inet_pton cfg.dest_ip) :
    (launchLoop env cfg P orc k i w).openHandles = w.openHandles ∧
      ∃ evs, (launchLoop env cfg P orc k i w).trace = w.trace ++ evs ∧
        launches evs = k ∧ invalidDestReports evs = 0 ∧
        socketCalls evs =
          ((List.range' i k).map (fun (t : Nat) =>
            loopCount (num_messages_for_thread cfg.num_messages cfg.num_threads t))).sum ∧
        sends evs + skips evs =
          ((List.range' i k).map (fun (t : Nat) =>
            loopCount (num_messages_for_thread cfg.num_messages cfg.num_threads t))).sum ∧
        ((∀ a b, (orc.step a b).socket ≠ none) → cfg.sourceIpString = "" →
          P.source_ips = [] →
          sends evs =
            ((List.range' i k).map (fun (t : Nat) =>
              loopCount (num_messages_for_thread cfg.num_messages cfg.num_threads t))).sum) := by
  induction k generalizing i w with
  | zero => exact ⟨rfl, [], by simp [launchLoop], rfl, rfl, rfl, rfl, fun _ _ _ => rfl⟩
  | succ k ih =>
    obtain ⟨h1, e1, ht1, ⟨c1, c2, c3, c4⟩, hs1⟩ :=
      worker_effect_valid env cfg P
        (num_messages_for_thread cfg.num_messages cfg.num_threads (i : Int))
        (orc.step i) (orc.threadGen i) (w.emit (Event.threadLaunched i)) hv
    obtain ⟨h2, e2, ht2, d1, d2, d3, d4, hs2⟩ := ih (i + 1)
      (worker env cfg P (num_messages_for_thread cfg.num_messages cfg.num_threads (i : Int))
        (orc.step i) (orc.threadGen i) (w.emit (Event.threadLaunched i)))
    have hl : launches [Event.threadLaunched i] = 1 ∧
        invalidDestReports [Event.threadLaunched i] = 0 ∧
        socketCalls [Event.threadLaunched i] = 0 ∧ sends [Event.threadLaunched i] = 0 ∧
        skips [Event.threadLaunched i] = 0 := ⟨rfl, rfl, rfl, rfl, rfl⟩
    obtain ⟨l1, l2, l3, l4, l5⟩ := hl
    obtain ⟨a1, a2, a3, _, a5, a6⟩ := counts_append ([Event.threadLaunched i] ++ e1) e2
    obtain ⟨b1, b2, b3, _, b5, b6⟩ := counts_append [Event.threadLaunched i] e1
    refine ⟨?_, [Event.threadLaunched i] ++ e1 ++ e2, ?_, ?_, ?_, ?_, ?_, ?_⟩
    · show (launchLoop env cfg P orc k (i + 1) _).openHandles = _
      rw [h2, h1]; rfl
    · show (launchLoop env cfg P orc k (i + 1) _).trace = _
      rw [ht2, ht1]
      simp [World.emit, List.append_assoc]
    · omega
    · omega
    · simp only [List.range'_succ, List.map_cons, List.sum_cons]
      omega
    · simp only [List.range'_succ, List.map_cons, List.sum_cons]
      omega
    · intro ha hb hc
      have := hs1 (ha i) hb hc
      have := hs2 ha hb hc
      simp only [List.range'_succ, List.map_cons, List.sum_cons]
      omega

/-- With an invalid destination every one of the `k` threads is launched, makes
its own check, reports and returns; nothing else happens. -/
theorem launchLoop_effect_invalid (env : Env) (cfg : Config) (P : Pools) (orc : Oracle)
    (k i : Nat) (w : World) (hv : env.inet_pton cfg.dest_ip ≤ 0) :
    (launchLoop env cfg P orc k i w).openHandles = w.openHandles ∧
      ∃ evs, (launchLoop env cfg P orc k i w).trace = w.trace ++ evs ∧
        launches evs = k ∧ invalidDestReports evs = k ∧ socketCalls evs = 0 ∧
        sends evs = 0 ∧ skips evs = 0 := by
  induction k generalizing i w with
  | zero => exact ⟨rfl, [], by simp [launchLoop], rfl, rfl, rfl, rfl, rfl⟩
  | succ k ih =>
    obtain ⟨h2, e2, ht2, d1, d2, d3, d4, d5⟩ := ih (i + 1)
      (worker env cfg P (num_messages_for_thread cfg.num_messages cfg.num_threads (i : Int))
        (orc.step i) (orc.threadGen i) (w.emit (Event.threadLaunched i)))
    have hl : launches [Event.threadLaunched i, Event.errInvalidDest cfg.dest_ip] = 1 ∧
        invalidDestReports [Event.threadLaunched i, Event.errInvalidDest cfg.dest_ip] = 1 ∧
        socketCalls [Event.threadLaunched i, Event.errInvalidDest cfg.dest_ip] = 0 ∧
        sends [Event.threadLaunched i, Event.errInvalidDest cfg.dest_ip] = 0 ∧
        skips [Event.threadLaunched i, Event.errInvalidDest cfg.dest_ip] = 0 :=
      ⟨rfl, rfl, rfl, rfl, rfl⟩
    obtain ⟨l1, l2, l3, l4, l5⟩ := hl
    obtain ⟨a1, a2, a3, _, a5, a6⟩ :=
      counts_append [Event.threadLaunched i, Event.errInvalidDest cfg.dest_ip] e2
    refine ⟨?_, [Event.threadLaunched i, Event.errInvalidDest cfg.dest_ip] ++ e2,
      ?_, ?_, ?_, ?_, ?_, ?_⟩
    · show (launchLoop env cfg P orc k (i + 1) _).openHandles = _
      rw [h2, worker_invalid_dest env cfg P _ _ _ _ hv]; rfl
    · show (launchLoop env cfg P orc k (i + 1) _).trace = _
      rw [ht2, worker_invalid_dest env cfg P _ _ _ _ hv]
      simp [World.emit, List.append_assoc]
    all_goals omega

/-- Joining adds no send, skip, socket call, launch or destination report. -/
theorem joinLoop_effect (k i : Nat) (w : World) :
    (joinLoop k i w).openHandles = w.openHandles ∧
      ∃ evs, (joinLoop k i w).trace = w.trace ++ evs ∧
        launches evs = 0 ∧ invalidDestReports evs = 0 ∧ socketCalls evs = 0 ∧
        sends evs = 0 ∧ skips evs = 0 := by
  induction k generalizing i w with
  | zero => exact ⟨rfl, [], by simp [joinLoop], rfl, rfl, rfl, rfl, rfl⟩
  | succ k ih =>
    obtain ⟨h2, e2, ht2, d1, d2, d3, d4, d5⟩ := ih (i + 1) (w.emit (Event.threadJoined i))
    obtain ⟨a1, a2, a3, _, a5, a6⟩ := counts_append [Event.threadJoined i] e2
    have hl : launches [Event.threadJoined i] = 0 ∧
        invalidDestReports [Event.threadJoined i] = 0 ∧
        socketCalls [Event.threadJoined i] = 0 ∧ sends [Event.threadJoined i] = 0 ∧
        skips [Event.threadJoined i] = 0 := ⟨rfl, rfl, rfl, rfl, rfl⟩
    obtain ⟨l1, l2, l3, l4, l5⟩ := hl
    refine ⟨?_, [Event.threadJoined i] ++ e2, ?_, ?_, ?_, ?_, ?_, ?_⟩
    · show (joinLoop k (i + 1) _).openHandles = _
      rw [h2]; rfl
    · show (joinLoop k (i + 1) _).trace = _
      rw [ht2]
      simp [World.emit, List.append_assoc]
    all_goals omega

/-! ## The whole run -/

theorem sum_loopCount_of_nonneg (l : List Int) (h : ∀ x ∈ l, 0 ≤ x) :
    (((l.map loopCount).sum : Nat) : Int) = l.sum := by
  induction l with
  | nil => rfl
  | cons a l ih =>
    have ha : 0 ≤ a := h a (List.mem_cons_self a l)
    have hl := ih (fun x hx => h x (List.mem_cons_of_mem a hx))
    simp only [List.map_cons, List.sum_cons, Nat.cast_add]
    rw [hl]
    unfold loopCount
    omega

/-- The loop counts of all threads, as launched by main, are those of the quota
list. -/
theorem range_loopCount_eq (total n : Int) :
    ((List.range' 0 (loopCount n)).map (fun (t : Nat) =>
        loopCount (num_messages_for_thread total n t))).sum =
      ((perWorkerQuota total n).map loopCount).sum := by
  unfold perWorkerQuota
  rw [List.range_eq_range', List.map_map]
  rfl

/-- In the range where no quota is truncated the loop counts add up to the total. -/
theorem loopCount_sum_of_fit (total n : Int) (ht : 0 ≤ total) (hn : 0 < n)
    (hfit : messages_per_thread total n + remainder total n ≤ INT_MAX) :
    ((((perWorkerQuota total n).map loopCount).sum : Nat) : Int) = total := by
  obtain ⟨hq, hr, _, _⟩ := tdiv_tmod_nonneg total n ht hn
  rw [sum_loopCount_of_nonneg, (perWorkerQuota_sum_of_fit total n ht hn hfit).1]
  rw [perWorkerQuota_of_fit total n ht hn hfit]
  intro x hx
  rcases List.mem_append.mp hx with h | h
  · rw [(List.mem_replicate.mp h).2]; exact hq
  · rw [List.mem_singleton.mp h]
    unfold messages_per_thread remainder
    omega

/-- A run with a valid destination: one thread per unit of `num_threads`, and
sends plus skips equal to the number of loop iterations of all threads. -/
theorem main_effect_valid (env : Env) (cfg : Config) (P : Pools) (orc : Oracle) (w : World)
    (hn : 0 < cfg.num_threads) (hv : 0 < env.inet_pton cfg.dest_ip) :
    ∃ r, main env cfg P orc w = some r ∧ r.exitStatus = 0 ∧
      r.world.openHandles = w.openHandles ∧
      ∃ evs, r.world.trace = w.trace ++ evs ∧
        ((launches evs : Nat) : Int) = cfg.num_threads ∧
        sends evs + skips evs =
          ((perWorkerQuota cfg.num_messages cfg.num_threads).map loopCount).sum ∧
        ((∀ a b, (orc.step a b).socket ≠ none) → cfg.sourceIpString = "" →
          P.source_ips = [] →
          sends evs = ((perWorkerQuota cfg.num_messages cfg.num_threads).map loopCount).sum) := by
  have hnone : ¬ (cfg.num_threads = 0 ∨
      (cfg.num_messages = LONG_MIN ∧ cfg.num_threads = -1)) := by omega
  obtain ⟨h1, e1, ht1, c1, _, _, c4, c5⟩ :=
    launchLoop_effect_valid env cfg P orc (loopCount cfg.num_threads) 0 w hv
  obtain ⟨h2, e2, ht2, d1, _, _, d4, d5⟩ :=
    joinLoop_effect (loopCount cfg.num_threads) 0
      (launchLoop env cfg P orc (loopCount cfg.num_threads) 0 w)
  obtain ⟨a1, a2, _, _, a5, _⟩ := counts_append e1 e2
  rw [range_loopCount_eq] at c4 c5
  refine ⟨_, by unfold main; rw [if_neg hnone], rfl, ?_, e1 ++ e2, ?_, ?_, ?_, ?_⟩
  · show (joinLoop _ _ _).openHandles = _
    rw [h2, h1]
  · show (joinLoop _ _ _).trace = _
    rw [ht2, ht1, List.append_assoc]
  · rw [a5, c1, d1]; unfold loopCount; omega
  · omega
  · intro ha hb hc
    have := c5 ha hb hc
    omega

/-- In the range where no quota is truncated, a run with a valid destination
covers the total exactly: sends plus skips equal `num_messages`, and when
no source address is configured and every `socket` call succeeds the sends
alone do. -/
theorem main_exact_coverage_of_fit (env : Env) (cfg : Config) (P : Pools) (orc : Oracle)
    (w : World) (ht : 0 ≤ cfg.num_messages) (hn : 0 < cfg.num_threads)
    (hfit : messages_per_thread cfg.num_messages cfg.num_threads +
      remainder cfg.num_messages cfg.num_threads ≤ INT_MAX)
    (hv : 0 < env.inet_pton cfg.dest_ip) :
    ∃ r, main env cfg P orc w = some r ∧
      ∃ evs, r.world.trace = w.trace ++ evs ∧
        ((launches evs : Nat) : Int) = cfg.num_threads ∧
        ((sends evs + skips evs : Nat) : Int) = cfg.num_messages ∧
        ((∀ a b, (orc.step a b).socket ≠ none) → cfg.sourceIpString = "" →
          P.source_ips = [] → ((sends evs : Nat) : Int) = cfg.num_messages) := by
  obtain ⟨r, hr, _, _, evs, ht1, hl, hs, hall⟩ := main_effect_valid env cfg P orc w hn hv
  have hsum := loopCount_sum_of_fit cfg.num_messages cfg.num_threads ht hn hfit
  refine ⟨r, hr, evs, ht1, hl, ?_, ?_⟩
  · rw [hs]; exact hsum
  · intro ha hb hc
    rw [hall ha hb hc]; exact hsum

/-- The run of the end-to-end test: 100 messages on 4 threads to `127.0.0.1:5140`,
no files, every call succeeding, sends exactly 100 datagrams from 4 threads. -/
theorem main_sends_100 :
    ∃ r, main sampleEnv (sampleConfig 100 4 "") noPools okOracle initialWorld = some r ∧
      launches r.world.trace = 4 ∧ sends r.world.trace = 100 := by
  obtain ⟨r, hr, evs, ht, hl, _, hall⟩ :=
    main_exact_coverage_of_fit sampleEnv (sampleConfig 100 4 "") noPools okOracle initialWorld
      (by decide) (by decide) (by decide) (by decide)
  have h := hall (fun _ _ => by simp [okOracle, okStep]) rfl rfl
  refine ⟨r, hr, ?_, ?_⟩
  · rw [ht]
    have : initialWorld.trace = [] := rfl
    rw [this, List.nil_append]
    have h4 : ((launches evs : Nat) : Int) = 4 := hl
    omega
  · rw [ht]
    have : initialWorld.trace = [] := rfl
    rw [this, List.nil_append]
    have h100 : ((sends evs : Nat) : Int) = 100 := h
    omega

/-- C5, evaluated at `num_messages = 4294967296`, `num_threads = 1`, destination
`127.0.0.1`, no source address, every call succeeding: the one thread is
launched and joined, its loop runs 0 times, and sends plus skips are 0
instead of 4294967296. -/
theorem main_coverage_truncated :
    (main sampleEnv (sampleConfig 4294967296 1 "") noPools okOracle initialWorld).map
        (fun r => (r.world.trace, sends r.world.trace + skips r.world.trace)) =
      some ([Event.threadLaunched 0, Event.threadJoined 0], 0) := by
  decide

/-! ## Source address, descriptor lifecycle, invalid destination -/

theorem newEvents_of_append (w w2 : World) (evs : List Event)
    (h : w2.trace = w.trace ++ evs) : newEvents w w2 = evs := by
  unfold newEvents
  rw [h, List.drop_left]

theorem isEmpty_false_iff (s : String) : s.isEmpty = false ↔ s ≠ "" := by
  rw [Ne, ← String.isEmpty_iff]
  cases s.isEmpty <;> simp

/-- Lines 320-324: the chosen address is an entry of a non-empty pool, else the
fixed string. -/
theorem currentSourceIp_choice (env : Env) (s : String) (P : Pools) (g : Mt19937) :
    (P.source_ips ≠ [] → (currentSourceIp env s P g).1 ∈ P.source_ips) ∧
      (P.source_ips = [] → (currentSourceIp env s P g).1 = s) := by
  constructor
  · intro h
    unfold currentSourceIp
    rw [if_pos (List.isEmpty_eq_false.mpr h)]
    exact draw_mem env _ _ h
  · intro h
    unfold currentSourceIp
    rw [h]
    rfl

/-- C6, counterexample.  Fixed source address `"bogus"`, no pool, `socket`
succeeding: the effective address is `"bogus"`, which is not empty, and the
iteration calls neither `setsockopt` nor `bind`. -/
theorem bound_iff_nonempty_fails :
    ¬ BoundIffNonempty sampleEnv (sampleConfig 1 1 "bogus") noPools okStep initialWorld := by
  unfold BoundIffNonempty
  decide

/-- C6, amended.  In every iteration whose socket was acquired, the effective
source address is an entry of the pool when the pool is non-empty
(overriding the fixed string), else the fixed string (empty: none).  `bind`
is called if and only if that address is non-empty and `inet_pton` accepts
it; then the `IP_FREEBIND` request comes first, right after `socket`.  A
non-empty address that does not parse is never bound: the iteration is
`socket`, error report, `close`. -/
theorem sendIteration_source_address (env : Env) (cfg : Config) (P : Pools) (st : Step)
    (w : World) (fd : Nat) (hs : st.socket = some fd) :
    (P.source_ips ≠ [] →
        (currentSourceIp env cfg.sourceIpString P w.rng.gen).1 ∈ P.source_ips) ∧
      (P.source_ips = [] →
        (currentSourceIp env cfg.sourceIpString P w.rng.gen).1 = cfg.sourceIpString) ∧
      (0 < bindCalls (newEvents w (sendIteration env cfg P st w)) ↔
        ((currentSourceIp env cfg.sourceIpString P w.rng.gen).1 ≠ "" ∧
          0 < env.inet_pton (currentSourceIp env cfg.sourceIpString P w.rng.gen).1)) ∧
      ((currentSourceIp env cfg.sourceIpString P w.rng.gen).1 ≠ "" →
        0 < env.inet_pton (currentSourceIp env cfg.sourceIpString P w.rng.gen).1 →
        ∃ rest, newEvents w (sendIteration env cfg P st w) =
          [Event.socketCall fd, Event.setsockoptFreebind fd st.setsockopt_ret] ++
            (if st.setsockopt_ret = -1 then [Event.warnFreebind] else []) ++
            Event.bindCall fd (currentSourceIp env cfg.sourceIpString P w.rng.gen).1
              st.bind_ret :: rest) ∧
      ((currentSourceIp env cfg.sourceIpString P w.rng.gen).1 ≠ "" →
        env.inet_pton (currentSourceIp env cfg.sourceIpString P w.rng.gen).1 ≤ 0 →
        newEvents w (sendIteration env cfg P st w) =
          [Event.socketCall fd,
            Event.errInvalidSource (currentSourceIp env cfg.sourceIpString P w.rng.gen).1,
            Event.closeCall fd]) := by
  refine ⟨(currentSourceIp_choice env _ P _).1, (currentSourceIp_choice env _ P _).2, ?_, ?_, ?_⟩
  · by_cases hne : (currentSourceIp env cfg.sourceIpString P w.rng.gen).1.isEmpty = false
    · have hne2 := (isEmpty_false_iff _).mp hne
      by_cases hbad : env.inet_pton (currentSourceIp env cfg.sourceIpString P w.rng.gen).1 ≤ 0
      · rw [newEvents_of_append w _ _
          (congrArg World.trace (sendIteration_invalid_source env cfg P st w fd hs hne hbad))]
        constructor
        · intro h; exact absurd h (by simp [bindCalls, Event.isBind])
        · intro h; omega
      · by_cases hb : st.bind_ret = -1
        · rw [newEvents_of_append w _ _ (congrArg World.trace
            (sendIteration_bind_failed env cfg P st w fd hs hne (not_le.mp hbad) hb))]
          refine ⟨fun _ => ⟨hne2, not_le.mp hbad⟩, fun _ => ?_⟩
          simp [bindCalls, Event.isBind, List.countP_append, List.countP_cons]
        · rw [newEvents_of_append w _ _ (congrArg World.trace
            (sendIteration_bound_send env cfg P st w fd hs hne (not_le.mp hbad) hb))]
          refine ⟨fun _ => ⟨hne2, not_le.mp hbad⟩, fun _ => ?_⟩
          simp [bindCalls, Event.isBind, List.countP_append, List.countP_cons]
    · rw [newEvents_of_append w _ _
        (congrArg World.trace (sendIteration_unbound_send env cfg P st w fd hs hne))]
      have he : ¬ (currentSourceIp env cfg.sourceIpString P w.rng.gen).1 ≠ "" :=
        fun h => hne ((isEmpty_false_iff _).mpr h)
      constructor
      · intro h
        exfalso
        revert h
        by_cases hd : cfg.delay_ms > 0 <;>
          simp [bindCalls, Event.isBind, List.countP_append, List.countP_cons, hd]
      · intro h; exact absurd h.1 he
  · intro hne2 hok
    have hne := (isEmpty_false_iff _).mpr hne2
    by_cases hb : st.bind_ret = -1
    · rw [newEvents_of_append w _ _ (congrArg World.trace
        (sendIteration_bind_failed env cfg P st w fd hs hne hok hb))]
      exact ⟨_, by simp only [freebindEvents, List.append_assoc, List.cons_append,
        List.nil_append, List.singleton_append]; rfl⟩
    · rw [newEvents_of_append w _ _ (congrArg World.trace
        (sendIteration_bound_send env cfg P st w fd hs hne hok hb))]
      exact ⟨_, by simp only [freebindEvents, List.append_assoc, List.cons_append,
        List.nil_append, List.singleton_append]; rfl⟩
  · intro hne2 hbad
    exact newEvents_of_append w _ _ (congrArg World.trace
      (sendIteration_invalid_source env cfg P st w fd hs ((isEmpty_false_iff _).mpr hne2) hbad))

/-- C6, amended, at a concrete input: the fixed source address `10.0.0.1` with no
pool is bound, the pool `["10.0.0.2"]` overrides it, and `"bogus"` is skipped. -/
theorem sendIteration_source_address_witness :
    okStep.socket = some 3 ∧
      0 < bindCalls (newEvents initialWorld
        (sendIteration sampleEnv (sampleConfig 1 1 "10.0.0.1") noPools okStep initialWorld)) ∧
      (currentSourceIp sampleEnv (sampleConfig 1 1 "10.0.0.1").sourceIpString
          { syslogMessages := [], hostnames := [], source_ips := ["10.0.0.2"] }
          initialWorld.rng.gen).1 ∈ ["10.0.0.2"] ∧
      newEvents initialWorld
          (sendIteration sampleEnv (sampleConfig 1 1 "bogus") noPools okStep initialWorld) =
        [Event.socketCall 3, Event.errInvalidSource "bogus", Event.closeCall 3] :=
  ⟨rfl,
    (sendIteration_source_address sampleEnv (sampleConfig 1 1 "10.0.0.1") noPools okStep
      initialWorld 3 rfl).2.2.1.mpr ⟨by decide, by decide⟩,
    (sendIteration_source_address sampleEnv (sampleConfig 1 1 "10.0.0.1")
      { syslogMessages := [], hostnames := [], source_ips := ["10.0.0.2"] } okStep
      initialWorld 3 rfl).1 (by decide),
    (sendIteration_source_address sampleEnv (sampleConfig 1 1 "bogus") noPools okStep
      initialWorld 3 rfl).2.2.2.2 (by decide) (by decide)⟩

/-- C7, counterexample.  The source-address pool holds one blank line, so the
effective source address of the iteration is the pool entry `""`, which
`inet_pton` rejects; the iteration still transmits a datagram, from an
unbound socket. -/
theorem invalid_source_not_sent_fails :
    ¬ InvalidSourceNotSent sampleEnv (sampleConfig 1 1 "") blankSourcePool okStep
      initialWorld := by
  unfold InvalidSourceNotSent
  decide

/-- C7, amended.  An iteration whose effective source address is not empty and
does not parse transmits no datagram and leaves no descriptor open: when its
socket was acquired its events are `socket`, the error report and `close` of
that descriptor.  On every path of an iteration (socket failure, invalid
address, bind failure, send) the open descriptors after the iteration are
those before it, so their number is unchanged, and it is unchanged by a loop
of any number of iterations.  An empty effective source address (none
configured, or a blank pool entry) is not parsed at all: once the socket is
acquired the datagram is sent without a call of `bind`. -/
theorem sendIteration_handle_lifecycle (env : Env) (cfg : Config) (P : Pools) (w : World) :
    (∀ st : Step,
        (currentSourceIp env cfg.sourceIpString P w.rng.gen).1 ≠ "" →
        env.inet_pton (currentSourceIp env cfg.sourceIpString P w.rng.gen).1 ≤ 0 →
        datagrams (sendIteration env cfg P st w).trace = datagrams w.trace ∧
          (sendIteration env cfg P st w).openHandles = w.openHandles ∧
          (∀ fd : Nat, st.socket = some fd →
            newEvents w (sendIteration env cfg P st w) =
              [Event.socketCall fd,
                Event.errInvalidSource (currentSourceIp env cfg.sourceIpString P w.rng.gen).1,
                Event.closeCall fd])) ∧
      (∀ st : Step, (sendIteration env cfg P st w).openHandles = w.openHandles ∧
        (sendIteration env cfg P st w).handleCount = w.handleCount) ∧
      (∀ (steps : Nat → Step) (n j : Nat),
        (sendLoop env cfg P steps n j w).handleCount = w.handleCount) ∧
      (∀ (st : Step) (fd : Nat), st.socket = some fd →
        (currentSourceIp env cfg.sourceIpString P w.rng.gen).1 = "" →
        datagrams (sendIteration env cfg P st w).trace =
            datagrams w.trace ++
              [(getSyslogMessage env P st.now
                { gen := (currentSourceIp env cfg.sourceIpString P w.rng.gen).2,
                  gen_str := w.rng.gen_str }).1] ∧
          bindCalls (newEvents w (sendIteration env cfg P st w)) = 0) := by
  refine ⟨?_, ?_, ?_, ?_⟩
  · intro st hne2 hbad
    refine ⟨?_, (sendIteration_effect env cfg P st w).1, ?_⟩
    · cases hs : st.socket with
      | none =>
        rw [sendIteration_socket_failed env cfg P st w hs]
        simp [datagrams, List.filterMap_append, Event.datagram?]
      | some fd =>
        rw [sendIteration_invalid_source env cfg P st w fd hs
          ((isEmpty_false_iff _).mpr hne2) hbad]
        simp [datagrams, List.filterMap_append, Event.datagram?]
    · intro fd hs
      exact newEvents_of_append w _ _ (congrArg World.trace
        (sendIteration_invalid_source env cfg P st w fd hs
          ((isEmpty_false_iff _).mpr hne2) hbad))
  · intro st
    have h := (sendIteration_effect env cfg P st w).1
    exact ⟨h, congrArg List.length h⟩
  · intro steps n j
    exact congrArg List.length (sendLoop_effect env cfg P steps n j w).1
  · intro st fd hs he
    have hne : ¬ (currentSourceIp env cfg.sourceIpString P w.rng.gen).1.isEmpty = false :=
      fun h => (isEmpty_false_iff _).mp h he
    have hp := sendIteration_unbound_send env cfg P st w fd hs hne
    refine ⟨?_, ?_⟩
    · rw [hp]
      by_cases hd : cfg.delay_ms > 0 <;>
        simp [datagrams, List.filterMap_append, Event.datagram?, hd]
    · rw [newEvents_of_append w _ _ (congrArg World.trace hp)]
      by_cases hd : cfg.delay_ms > 0 <;>
        simp [bindCalls, Event.isBind, List.countP_append, List.countP_cons, hd]

/-- C7, amended, at concrete inputs: the source address `"bogus"`, one iteration
and a loop of five; and the blank pool entry, which is sent unbound. -/
theorem sendIteration_handle_lifecycle_witness :
    datagrams (sendIteration sampleEnv (sampleConfig 5 1 "bogus") noPools okStep
        initialWorld).trace = [] ∧
      (sendIteration sampleEnv (sampleConfig 5 1 "bogus") noPools okStep
        initialWorld).openHandles = [] ∧
      newEvents initialWorld
          (sendIteration sampleEnv (sampleConfig 5 1 "bogus") noPools okStep initialWorld) =
        [Event.socketCall 3, Event.errInvalidSource "bogus", Event.closeCall 3] ∧
      (sendLoop sampleEnv (sampleConfig 5 1 "bogus") noPools (fun _ => okStep) 5 0
        initialWorld).handleCount = 0 ∧
      bindCalls (newEvents initialWorld
        (sendIteration sampleEnv (sampleConfig 1 1 "") blankSourcePool okStep
          initialWorld)) = 0 :=
  ⟨((sendIteration_handle_lifecycle sampleEnv (sampleConfig 5 1 "bogus") noPools
      initialWorld).1 okStep (by decide) (by decide)).1,
    ((sendIteration_handle_lifecycle sampleEnv (sampleConfig 5 1 "bogus") noPools
      initialWorld).1 okStep (by decide) (by decide)).2.1,
    ((sendIteration_handle_lifecycle sampleEnv (sampleConfig 5 1 "bogus") noPools
      initialWorld).1 okStep (by decide) (by decide)).2.2 3 rfl,
    (sendIteration_handle_lifecycle sampleEnv (sampleConfig 5 1 "bogus") noPools
      initialWorld).2.2.1 (fun _ => okStep) 5 0,
    ((sendIteration_handle_lifecycle sampleEnv (sampleConfig 1 1 "") blankSourcePool
      initialWorld).2.2.2 okStep 3 rfl (by decide)).2⟩

/-- A run with an invalid destination: every thread is launched, each makes the
check and reports; no socket is acquired, nothing is sent, and main returns 0. -/
theorem main_effect_invalid (env : Env) (cfg : Config) (P : Pools) (orc : Oracle) (w : World)
    (hn : 0 < cfg.num_threads) (hv : env.inet_pton cfg.dest_ip ≤ 0) :
    ∃ r, main env cfg P orc w = some r ∧ r.exitStatus = 0 ∧
      r.world.openHandles = w.openHandles ∧
      ((launches (newEvents w r.world) : Nat) : Int) = cfg.num_threads ∧
      ((invalidDestReports (newEvents w r.world) : Nat) : Int) = cfg.num_threads ∧
      socketCalls (newEvents w r.world) = 0 ∧ sends (newEvents w r.world) = 0 := by
  have hnone : ¬ (cfg.num_threads = 0 ∨
      (cfg.num_messages = LONG_MIN ∧ cfg.num_threads = -1)) := by omega
  obtain ⟨h1, e1, ht1, c1, c2, c3, c4, _⟩ :=
    launchLoop_effect_invalid env cfg P orc (loopCount cfg.num_threads) 0 w hv
  obtain ⟨h2, e2, ht2, d1, d2, d3, d4, _⟩ :=
    joinLoop_effect (loopCount cfg.num_threads) 0
      (launchLoop env cfg P orc (loopCount cfg.num_threads) 0 w)
  obtain ⟨a1, _, a3, _, a5, a6⟩ := counts_append e1 e2
  have hnew : newEvents w (joinLoop (loopCount cfg.num_threads) 0
      (launchLoop env cfg P orc (loopCount cfg.num_threads) 0 w)) = e1 ++ e2 :=
    newEvents_of_append w _ _ (by rw [ht2, ht1, List.append_assoc])
  refine ⟨_, by unfold main; rw [if_neg hnone], rfl, ?_, ?_, ?_, ?_, ?_⟩
  · show (joinLoop _ _ _).openHandles = _
    rw [h2, h1]
  · show ((launches (newEvents w (joinLoop _ _ _)) : Nat) : Int) = _
    rw [hnew, a5, c1, d1]; unfold loopCount; omega
  · show ((invalidDestReports (newEvents w (joinLoop _ _ _)) : Nat) : Int) = _
    rw [hnew, a6, c2, d2]; unfold loopCount; omega
  · show socketCalls (newEvents w (joinLoop _ _ _)) = _
    rw [hnew, a3, c3, d3]
  · show sends (newEvents w (joinLoop _ _ _)) = _
    rw [hnew, a1, c4, d4]

/-- C8, counterexample.  Destination `"not-an-address"`, 10 messages, 3 threads:
the run is not aborted before dispatch, main returns a result in which
threads were launched. -/
theorem abort_before_dispatch_fails :
    ¬ AbortsBeforeDispatch sampleEnv (badDestConfig 10 3) noPools okOracle initialWorld := by
  intro h
  obtain ⟨r, hr, _, _, hl, _⟩ :=
    main_effect_invalid sampleEnv (badDestConfig 10 3) noPools okOracle initialWorld
      (by decide) (by decide)
  have h0 := (h r hr).1
  rw [h0] at hl
  exact absurd hl (by decide)

/-- C8, amended.  For every destination string that `inet_pton` rejects and every
`num_messages` and `num_threads > 0`, the run is not aborted: all
`num_threads` threads are launched, each performs the validity check itself
(so there are `num_threads` checks and reports, not one) and returns before
its send loop; no socket is acquired, no datagram is transmitted, and main
returns 0. -/
theorem main_invalid_destination (env : Env) (cfg : Config) (P : Pools) (orc : Oracle)
    (w : World) (hn : 0 < cfg.num_threads) (hv : env.inet_pton cfg.dest_ip ≤ 0) :
    ∃ r, main env cfg P orc w = some r ∧ r.exitStatus = 0 ∧
      r.world.openHandles = w.openHandles ∧
      ((launches (newEvents w r.world) : Nat) : Int) = cfg.num_threads ∧
      ((invalidDestReports (newEvents w r.world) : Nat) : Int) = cfg.num_threads ∧
      socketCalls (newEvents w r.world) = 0 ∧ sends (newEvents w r.world) = 0 :=
  main_effect_invalid env cfg P orc w hn hv

/-- C8, amended, at a concrete input: destination `"not-an-address"`, 10 messages,
3 threads. -/
theorem main_invalid_destination_witness :
    (0 : Int) < (badDestConfig 10 3).num_threads ∧
      sampleEnv.inet_pton (badDestConfig 10 3).dest_ip ≤ 0 ∧
      ∃ r, main sampleEnv (badDestConfig 10 3) noPools okOracle initialWorld = some r ∧
        r.exitStatus = 0 ∧ r.world.openHandles = initialWorld.openHandles ∧
        ((launches (newEvents initialWorld r.world) : Nat) : Int) =
          (badDestConfig 10 3).num_threads ∧
        ((invalidDestReports (newEvents initialWorld r.world) : Nat) : Int) =
          (badDestConfig 10 3).num_threads ∧
        socketCalls (newEvents initialWorld r.world) = 0 ∧
        sends (newEvents initialWorld r.world) = 0 :=
  ⟨by decide, by decide,
    main_invalid_destination sampleEnv (badDestConfig 10 3) noPools okOracle initialWorld
      (by decide) (by decide)⟩

/-! ## Timestamp layout -/

theorem put_time_format (t : Tm) :
    put_time t "%b %e %H:%M:%S".data =
      (abMonth.getD t.tm_mon "?").data ++ ' ' :: (padLeft ' ' 2 t.tm_mday ++
        ' ' :: (padLeft '0' 2 t.tm_hour ++ ':' :: (padLeft '0' 2 t.tm_min ++
          ':' :: padLeft '0' 2 t.tm_sec))) := by
  show put_time t ['%', 'b', ' ', '%', 'e', ' ', '%', 'H', ':', '%', 'M', ':', '%', 'S'] = _
  simp [put_time, conversion]

theorem padLeft_zero_two : ∀ n < 100, padLeft '0' 2 n = [digit (n / 10), digit (n % 10)] := by
  decide

theorem padLeft_space_two :
    ∀ n < 100, padLeft ' ' 2 n =
      [if n < 10 then ' ' else digit (n / 10), digit (n % 10)] := by
  decide

theorem abMonth_entry :
    ∀ m < 12, abMonth.getD m "?" ∈ abMonth ∧ (abMonth.getD m "?").data.length = 3 := by
  decide

/-- C9.  For every local time with month index below 12, day in 1..31, hour below
24, minute below 60 and second at most 60, the timestamp is the three-letter
English month abbreviation, a space, the day in two characters with a leading
space below 10, a space, then two-digit hour, minute and second separated by
colons: 15 characters, no year and no zone (the result is the same for all
times that agree on these five fields).  For 2024-07-02 10:18:14 it is
`"Jul  2 10:18:14"`. -/
theorem generateRFC3164Timestamp_layout (t : Tm) (hmon : t.tm_mon < 12)
    (hd1 : 1 ≤ t.tm_mday) (hd2 : t.tm_mday ≤ 31) (hh : t.tm_hour < 24) (hm : t.tm_min < 60)
    (hs : t.tm_sec ≤ 60) :
    (generateRFC3164Timestamp t).data =
        (abMonth.getD t.tm_mon "?").data ++
          [' ', (if t.tm_mday < 10 then ' ' else digit (t.tm_mday / 10)),
            digit (t.tm_mday % 10), ' ',
            digit (t.tm_hour / 10), digit (t.tm_hour % 10), ':',
            digit (t.tm_min / 10), digit (t.tm_min % 10), ':',
            digit (t.tm_sec / 10), digit (t.tm_sec % 10)] ∧
      abMonth.getD t.tm_mon "?" ∈ abMonth ∧
      (abMonth.getD t.tm_mon "?").length = 3 ∧
      (generateRFC3164Timestamp t).length = 15 ∧
      (∀ t2 : Tm, t2.tm_mon = t.tm_mon → t2.tm_mday = t.tm_mday → t2.tm_hour = t.tm_hour →
        t2.tm_min = t.tm_min → t2.tm_sec = t.tm_sec →
        generateRFC3164Timestamp t2 = generateRFC3164Timestamp t) ∧
      generateRFC3164Timestamp sampleTm = "Jul  2 10:18:14" := by
  have hdata : (generateRFC3164Timestamp t).data =
      (abMonth.getD t.tm_mon "?").data ++
          [' ', (if t.tm_mday < 10 then ' ' else digit (t.tm_mday / 10)),
            digit (t.tm_mday % 10), ' ',
            digit (t.tm_hour / 10), digit (t.tm_hour % 10), ':',
            digit (t.tm_min / 10), digit (t.tm_min % 10), ':',
            digit (t.tm_sec / 10), digit (t.tm_sec % 10)] := by
    show put_time t "%b %e %H:%M:%S".data = _
    rw [put_time_format, padLeft_space_two _ (by omega), padLeft_zero_two _ (by omega),
      padLeft_zero_two _ (by omega), padLeft_zero_two _ (by omega)]
    rfl
  have hmonth := abMonth_entry t.tm_mon hmon
  refine ⟨hdata, hmonth.1, hmonth.2, ?_, ?_, by decide⟩
  · show (generateRFC3164Timestamp t).data.length = 15
    rw [hdata, List.length_append, hmonth.2]
    rfl
  · intro t2 h1 h2 h3 h4 h5
    unfold generateRFC3164Timestamp
    rw [put_time_format, put_time_format, h1, h2, h3, h4, h5]

/-- C9 at the local time 2024-07-02 10:18:14. -/
theorem generateRFC3164Timestamp_layout_witness :
    (sampleTm.tm_mon < 12 ∧ 1 ≤ sampleTm.tm_mday ∧ sampleTm.tm_mday ≤ 31 ∧
        sampleTm.tm_hour < 24 ∧ sampleTm.tm_min < 60 ∧ sampleTm.tm_sec ≤ 60) ∧
      (generateRFC3164Timestamp sampleTm).length = 15 ∧
      generateRFC3164Timestamp sampleTm = "Jul  2 10:18:14" :=
  ⟨by decide,
    (generateRFC3164Timestamp_layout sampleTm (by decide) (by decide) (by decide) (by decide)
      (by decide) (by decide)).2.2.2.1,
    (generateRFC3164Timestamp_layout sampleTm (by decide) (by decide) (by decide) (by decide)
      (by decide) (by decide)).2.2.2.2.2⟩

/-! ## Throughput: rounding to `double` -/

theorem roundHalfEven_ge_floor (x : ℚ) : ⌊x⌋ ≤ roundHalfEven x := by
  unfold roundHalfEven
  split_ifs <;> omega

theorem round_zero : F64.round 0 = F64.zero false := by
  simp [F64.round]

/-- A magnitude of at least `2 ^ j`, with `j` in the normal range, rounds to at
least `2 ^ j`. -/
theorem roundedMagnitude_ge (q : ℚ) (j : Int) (hj : -1022 ≤ j) (h : (2 : ℚ) ^ j ≤ |q|) :
    (2 : ℚ) ^ j ≤ roundedMagnitude q := by
  have hpos : 0 < |q| := lt_of_lt_of_le (zpow_pos (by norm_num) j) h
  have hk : j ≤ Int.log 2 |q| :=
    (Int.zpow_le_iff_le_log (by norm_num) hpos).mp (by exact_mod_cast h)
  have h2k : (2 : ℚ) ^ Int.log 2 |q| ≤ |q| := by
    have := Int.zpow_log_le_self (by norm_num : 1 < 2) hpos
    exact_mod_cast this
  have hu : ulpExponent q = Int.log 2 |q| - 52 := by
    unfold ulpExponent
    rw [max_eq_left (by omega)]
  have hupos : (0 : ℚ) < 2 ^ (Int.log 2 |q| - 52) := zpow_pos (by norm_num) _
  have hsplit : (2 : ℚ) ^ Int.log 2 |q| = 2 ^ (52 : Int) * 2 ^ (Int.log 2 |q| - 52) := by
    rw [← zpow_add₀ (by norm_num : (2 : ℚ) ≠ 0)]
    congr 1
    omega
  have hscaled : ((2 ^ 52 : Int) : ℚ) ≤ |q| / 2 ^ (Int.log 2 |q| - 52) := by
    rw [le_div_iff₀ hupos]
    calc ((2 ^ 52 : Int) : ℚ) * 2 ^ (Int.log 2 |q| - 52)
        = 2 ^ (52 : Int) * 2 ^ (Int.log 2 |q| - 52) := by norm_num
      _ = 2 ^ Int.log 2 |q| := hsplit.symm
      _ ≤ |q| := h2k
  have hm : (2 ^ 52 : Int) ≤ roundHalfEven (|q| / 2 ^ (Int.log 2 |q| - 52)) :=
    le_trans (Int.le_floor.mpr hscaled) (roundHalfEven_ge_floor _)
  have hmq : ((2 ^ 52 : Int) : ℚ) ≤ (roundHalfEven (|q| / 2 ^ (Int.log 2 |q| - 52)) : ℚ) := by
    exact_mod_cast hm
  unfold roundedMagnitude
  rw [hu]
  calc (2 : ℚ) ^ j ≤ 2 ^ Int.log 2 |q| := zpow_le_zpow_right₀ (by norm_num) hk
    _ = 2 ^ (52 : Int) * 2 ^ (Int.log 2 |q| - 52) := hsplit
    _ = ((2 ^ 52 : Int) : ℚ) * 2 ^ (Int.log 2 |q| - 52) := by norm_num
    _ ≤ _ := mul_le_mul_of_nonneg_right hmq (le_of_lt hupos)

/-- A value of magnitude at least `2 ^ j`, with `j` in the normal range, rounds to
an infinity of its sign or to a finite value of its sign and of magnitude at
least `2 ^ j`; never to zero or NaN. -/
theorem round_of_ge (q : ℚ) (j : Int) (hj : -1022 ≤ j) (h : (2 : ℚ) ^ j ≤ |q|) :
    F64.round q = F64.inf (decide (q < 0)) ∨
      ∃ r, F64.round q = F64.finite r ∧ (2 : ℚ) ^ j ≤ |r| ∧ (r < 0 ↔ q < 0) := by
  have hjpos : (0 : ℚ) < 2 ^ j := zpow_pos (by norm_num) j
  have hq : q ≠ 0 := by
    intro h0
    rw [h0, abs_zero] at h
    exact absurd h (not_le.mpr hjpos)
  have hm := roundedMagnitude_ge q j hj h
  have hmpos : 0 < roundedMagnitude q := lt_of_lt_of_le hjpos hm
  unfold F64.round
  rw [if_neg hq, if_neg (ne_of_gt hmpos)]
  by_cases hov : (2 : ℚ) ^ (1024 : Int) ≤ roundedMagnitude q
  · left
    rw [if_pos hov]
  · right
    rw [if_neg hov]
    by_cases hneg : q < 0
    · refine ⟨_, rfl, ?_, ?_⟩
      · rw [if_pos hneg, abs_neg, abs_of_pos hmpos]
        exact hm
      · rw [if_pos hneg]
        constructor
        · intro _; exact hneg
        · intro _; linarith
    · refine ⟨_, rfl, ?_, ?_⟩
      · rw [if_neg hneg, abs_of_pos hmpos]
        exact hm
      · rw [if_neg hneg]
        constructor
        · intro h1; linarith
        · intro h1; exact absurd h1 hneg

/-- The conversion of a non-zero integer is an infinity of its sign or a finite
value of its sign and of magnitude at least 1. -/
theorem ofInt_of_ne_zero (n : Int) (hn : n ≠ 0) :
    F64.ofInt n = F64.inf (decide (n < 0)) ∨
      ∃ r, F64.ofInt n = F64.finite r ∧ 1 ≤ |r| ∧ (r < 0 ↔ n < 0) := by
  have h1 : (2 : ℚ) ^ (0 : Int) ≤ |(n : ℚ)| := by
    rw [zpow_zero]
    have : (1 : Int) ≤ |n| := Int.one_le_abs hn
    exact_mod_cast this
  have hsign : ((n : ℚ) < 0) ↔ (n < 0) := by exact_mod_cast Iff.rfl
  rcases round_of_ge (n : ℚ) 0 (by decide) h1 with h | ⟨r, hr, hge, hs⟩
  · left
    unfold F64.ofInt
    rw [h]
    simp [hsign]
  · right
    refine ⟨r, hr, ?_, hs.trans hsign⟩
    rw [zpow_zero] at hge
    exact hge

theorem durationCount_zero : durationCount 0 = F64.zero false := by
  simp [durationCount, F64.ofInt, F64.div, round_zero]

/-- The duration of a non-zero clock difference is an infinity or a non-zero
finite value, of the sign of the difference. -/
theorem durationCount_of_ne_zero (e : Int) (he : e ≠ 0) :
    durationCount e = F64.inf (decide (e < 0)) ∨
      ∃ d, durationCount e = F64.finite d ∧ d ≠ 0 ∧ (d < 0 ↔ e < 0) := by
  unfold durationCount
  rcases ofInt_of_ne_zero e he with h | ⟨r, hr, hge, hs⟩
  · left
    rw [h]
    have hf : decide ((1000000000 : ℚ) < 0) = false := decide_eq_false (by norm_num)
    simp [F64.div, hf]
  · rw [hr]
    have hq : (2 : ℚ) ^ (-30 : Int) ≤ |r / 1000000000| := by
      rw [abs_div, abs_of_pos (by norm_num : (0 : ℚ) < 1000000000), le_div_iff₀ (by norm_num)]
      calc (2 : ℚ) ^ (-30 : Int) * 1000000000 ≤ 1 := by norm_num
        _ ≤ |r| := hge
    have hsign : r / 1000000000 < 0 ↔ e < 0 := by
      rw [div_neg_iff]
      constructor
      · rintro (⟨_, h2⟩ | ⟨h1, _⟩)
        · norm_num at h2
        · exact hs.mp h1
      · intro h1
        exact Or.inr ⟨hs.mpr h1, by norm_num⟩
    have hd : F64.div (F64.finite r) (F64.finite 1000000000) = F64.round (r / 1000000000) :=
      rfl
    rw [hd]
    rcases round_of_ge (r / 1000000000) (-30) (by decide) hq with h | ⟨d, hdr, hdge, hds⟩
    · left
      rw [h]
      simp [hsign]
    · right
      refine ⟨d, hdr, ?_, hds.trans hsign⟩
      intro h0
      rw [h0, abs_zero] at hdge
      exact absurd hdge (not_le.mpr (zpow_pos (by norm_num) _))

theorem roundHalfEven_eq (x : ℚ) (m : Int) (h1 : (m : ℚ) - 1 / 2 < x)
    (h2 : x < (m : ℚ) + 1 / 2) : roundHalfEven x = m := by
  unfold roundHalfEven
  by_cases hx : (m : ℚ) ≤ x
  · have hf : ⌊x⌋ = m := Int.floor_eq_iff.mpr ⟨hx, by linarith⟩
    rw [hf, if_pos (by linarith)]
  · have hf : ⌊x⌋ = m - 1 :=
      Int.floor_eq_iff.mpr ⟨by push_cast; linarith, by push_cast; linarith⟩
    rw [hf, if_neg (by push_cast; linarith), if_pos (by push_cast; linarith)]
    omega

/-- Evaluation of the rounding at a positive value in the normal range: with
`2 ^ k ≤ q < 2 ^ (k + 1)` and `m` the integer strictly nearest to
`q / 2 ^ (k - 52)`, the result is `m * 2 ^ (k - 52)`. -/
theorem round_eq_of_near (q : ℚ) (k m : Int) (hk : -1022 ≤ k) (hlo : (2 : ℚ) ^ k ≤ q)
    (hhi : q < (2 : ℚ) ^ (k + 1)) (h1 : (m : ℚ) - 1 / 2 < q / 2 ^ (k - 52))
    (h2 : q / 2 ^ (k - 52) < (m : ℚ) + 1 / 2)
    (hfin : (m : ℚ) * 2 ^ (k - 52) < 2 ^ (1024 : Int)) :
    F64.round q = F64.finite ((m : ℚ) * 2 ^ (k - 52)) := by
  have hpos : 0 < q := lt_of_lt_of_le (zpow_pos (by norm_num) k) hlo
  have habs : |q| = q := abs_of_pos hpos
  have hlog : Int.log 2 q = k := by
    apply le_antisymm
    · have : Int.log 2 q < k + 1 :=
        (Int.lt_zpow_iff_log_lt (by norm_num : 1 < 2) hpos).mp (by exact_mod_cast hhi)
      omega
    · exact (Int.zpow_le_iff_le_log (by norm_num : 1 < 2) hpos).mp (by exact_mod_cast hlo)
  have hu : ulpExponent q = k - 52 := by
    unfold ulpExponent
    rw [habs, hlog, max_eq_left hk]
  have hr : roundedMagnitude q = (m : ℚ) * 2 ^ (k - 52) := by
    unfold roundedMagnitude
    rw [hu, habs, roundHalfEven_eq _ m h1 h2]
  have hmag : roundedMagnitude q ≠ 0 :=
    ne_of_gt (lt_of_lt_of_le (zpow_pos (by norm_num) k)
      (roundedMagnitude_ge q k hk (by rw [habs]; exact hlo)))
  unfold F64.round
  rw [if_neg (ne_of_gt hpos), if_neg hmag, hr, if_neg (not_le.mpr hfin),
    if_neg (not_lt.mpr (le_of_lt hpos))]

theorem round_one : F64.round 1 = F64.finite 1 := by
  have h := round_eq_of_near 1 0 4503599627370496 (by decide) (by norm_num) (by norm_num)
    (by norm_num) (by norm_num) (by norm_num)
  rw [h]
  norm_num

theorem round_three : F64.round 3 = F64.finite 3 := by
  have h := round_eq_of_near 3 1 6755399441055744 (by decide) (by norm_num) (by norm_num)
    (by norm_num) (by norm_num) (by norm_num)
  rw [h]
  norm_num

theorem round_three_billion : F64.round 3000000000 = F64.finite 3000000000 := by
  have h := round_eq_of_near 3000000000 31 6291456000000000 (by decide) (by norm_num)
    (by norm_num) (by norm_num) (by norm_num) (by norm_num)
  rw [h]
  norm_num

/-- The quotient `1 / 3` rounds to `6004799503160661 * 2 ^ (-54)`, the `double`
with the bits `0x3fd5555555555555`. -/
theorem round_one_third :
    F64.round (1 / 3) = F64.finite (6004799503160661 / 18014398509481984) := by
  have h := round_eq_of_near (1 / 3) (-2) 6004799503160661 (by decide) (by norm_num)
    (by norm_num) (by norm_num) (by norm_num) (by norm_num)
  rw [h]
  norm_num

/-! ## Throughput -/

theorem messages_per_second_zero_total (e : Int) (he : e ≠ 0) :
    messages_per_second 0 e = F64.zero (decide (e < 0)) := by
  have h0 : F64.ofInt 0 = F64.zero false := by simp [F64.ofInt, round_zero]
  unfold messages_per_second
  rw [h0]
  rcases durationCount_of_ne_zero e he with hs | ⟨d, hd, _, hsign⟩
  · rw [hs]
    simp [F64.div]
  · rw [hd]
    simp [F64.div, hsign]

theorem messages_per_second_zero_elapsed (n : Int) (hn : n ≠ 0) :
    messages_per_second n 0 = F64.inf (decide (n < 0)) := by
  unfold messages_per_second
  rw [durationCount_zero]
  rcases ofInt_of_ne_zero n hn with h | ⟨r, hr, _, hs⟩
  · rw [h]
    simp [F64.div]
  · rw [hr]
    simp [F64.div, hs]

theorem messages_per_second_zero_zero : messages_per_second 0 0 = F64.nan := by
  unfold messages_per_second
  rw [durationCount_zero]
  simp [F64.ofInt, round_zero, F64.div]

theorem durationCount_three_seconds : durationCount 3000000000 = F64.finite 3 := by
  have h : F64.ofInt 3000000000 = F64.finite 3000000000 := by
    unfold F64.ofInt
    exact_mod_cast round_three_billion
  unfold durationCount
  rw [h]
  have hq : (3000000000 : ℚ) / 1000000000 = 3 := by norm_num
  show F64.round (3000000000 / 1000000000) = F64.finite 3
  rw [hq, round_three]

theorem ofInt_one : F64.ofInt 1 = F64.finite 1 := by
  unfold F64.ofInt
  exact_mod_cast round_one

/-- C10, counterexample.  A run of 0 messages on 4 threads that takes one second
reports the throughput `+0`, a number, not an undefined sentinel. -/
theorem zero_total_undefined_fails :
    ¬ ZeroTotalUndefined sampleEnv (sampleConfig 0 4 "") noPools okOracle initialWorld := by
  intro h
  have h0 := h _ rfl rfl
  have h1 : messages_per_second 0 1000000000 = F64.zero false :=
    messages_per_second_zero_total 1000000000 (by decide)
  have h2 : (messages_per_second 0 1000000000).isSpecial = true := h0
  rw [h1] at h2
  exact absurd h2 (by decide)

/-- C10, amended.  The throughput is the `double` division of
`static_cast<double>(num_messages)` by `duration.count()`, itself the `double`
division of the converted tick count by `10 ^ 9`; it is computed without a
guard and it is what main reports.  Every conversion and division rounds to
the nearest `double`: for a finite non-zero duration and count the result is
the rounded quotient of the rounded operands.  For a non-zero elapsed time
and `num_messages = 0` it is a zero (of the sign of the elapsed time), a
number and no sentinel.  For an elapsed time of zero it is what the division
itself yields: the infinity of the sign of `num_messages` when that is not 0,
NaN when it is 0. -/
theorem messages_per_second_unguarded (n e : Int) :
    messages_per_second n e =
        F64.div (F64.ofInt n) (F64.div (F64.ofInt e) (F64.finite 1000000000)) ∧
      (∀ env cfg P orc w r, main env cfg P orc w = some r →
        r.messages_per_second = messages_per_second cfg.num_messages orc.elapsed_ns) ∧
      (∀ a d : ℚ, F64.ofInt n = F64.finite a → durationCount e = F64.finite d →
        messages_per_second n e = F64.round (a / d)) ∧
      (e ≠ 0 → messages_per_second 0 e = F64.zero (decide (e < 0)) ∧
        (messages_per_second 0 e).isSpecial = false) ∧
      (n ≠ 0 → messages_per_second n 0 = F64.inf (decide (n < 0))) ∧
      messages_per_second 0 0 = F64.nan := by
  refine ⟨rfl, ?_, ?_, ?_, messages_per_second_zero_elapsed n,
    messages_per_second_zero_zero⟩
  · intro env cfg P orc w r hr
    unfold main at hr
    split at hr
    · exact absurd hr (by simp)
    · rw [← Option.some.inj hr]
  · intro a d ha hd
    unfold messages_per_second
    rw [ha, hd]
    rfl
  · intro he
    have h := messages_per_second_zero_total e he
    exact ⟨h, by rw [h]; rfl⟩

/-- C10, amended, at concrete inputs: 1 message in three seconds is reported as
`6004799503160661 * 2 ^ (-54)` (the `double` nearest to one third), 0 messages
in one second as `+0`, 5 messages in no time as the positive infinity. -/
theorem messages_per_second_unguarded_witness :
    messages_per_second 1 3000000000 = F64.finite (6004799503160661 / 18014398509481984) ∧
      messages_per_second 0 1000000000 = F64.zero false ∧
      messages_per_second 5 0 = F64.inf false :=
  ⟨((messages_per_second_unguarded 1 3000000000).2.2.1 1 3 ofInt_one
      durationCount_three_seconds).trans round_one_third,
    ((messages_per_second_unguarded 0 1000000000).2.2.2.1 (by decide)).1,
    (messages_per_second_unguarded 5 0).2.2.2.2.1 (by decide)⟩

/-! ## The character draw -/

theorem alphabet_eq : alphabet = alphanumLiteral.data := by
  decide

theorem alphabet_nodup : alphabet.Nodup := by
  decide

theorem alphanum_index_inj :
    ∀ i < 63, ∀ j < 63,
      alphanum.getD i (Char.ofNat 0) = alphanum.getD j (Char.ofNat 0) → i = j := by
  decide

theorem alphabet_getD :
    ∀ i < 63, alphabet.getD i (Char.ofNat 0) = alphanum.getD i (Char.ofNat 0) := by
  decide

theorem charOfOutput_eq_iff (x i : Nat) (hi : i < 63) :
    charOfOutput x = alphabet.getD i (Char.ofNat 0) ↔ x % 63 = i := by
  have hs : sizeofAlphanum - 1 = 63 := by decide
  have hx : x % 63 < 63 := Nat.mod_lt _ (by decide)
  unfold charOfOutput
  rw [hs, alphabet_getD i hi]
  constructor
  · intro h
    exact alphanum_index_inj _ hx _ hi h
  · intro h
    rw [h]

/-- The symbol at index `i` has `2^32 / 63` preimages, and one more when
`i < 2^32 % 63 = 4`. -/
theorem preimageCount_index (i : Nat) (hi : i < 63) :
    preimageCount (alphabet.getD i (Char.ofNat 0)) = if i < 4 then 68174085 else 68174084 := by
  have h := @Nat.count_modEq_card 4294967296 63 (by decide) i
  rw [Nat.count_eq_card_filter_range] at h
  unfold preimageCount
  rw [Nat.count_eq_card_filter_range]
  have hf : Finset.filter (fun x => charOfOutput x = alphabet.getD i (Char.ofNat 0))
      (Finset.range 4294967296) =
      Finset.filter (fun x => x ≡ i [MOD 63]) (Finset.range 4294967296) := by
    apply Finset.filter_congr
    intro x _
    rw [charOfOutput_eq_iff x i hi]
    unfold Nat.ModEq
    rw [Nat.mod_eq_of_lt hi]
  rw [hf, h, Nat.mod_eq_of_lt hi]
  have h1 : 4294967296 / 63 = 68174084 := by norm_num
  have h2 : 4294967296 % 63 = 4 := by norm_num
  rw [h1, h2]
  split_ifs <;> rfl

theorem mem_alphabet_index (c : Char) (hc : c ∈ alphabet) :
    ∃ i, i < 63 ∧ c = alphabet.getD i (Char.ofNat 0) := by
  obtain ⟨i, hi, rfl⟩ := List.getElem_of_mem hc
  have hl : alphabet.length = 63 := by decide
  exact ⟨i, hl ▸ hi, (List.getD_eq_getElem alphabet _ hi).symm⟩

theorem charOfOutput_mem (x : Nat) : charOfOutput x ∈ alphabet := by
  have hl : alphabet.length = 63 := by decide
  have hx : x % 63 < 63 := Nat.mod_lt _ (by decide)
  have h : charOfOutput x = alphabet.getD (x % 63) (Char.ofNat 0) :=
    (charOfOutput_eq_iff x (x % 63) hx).mpr rfl
  rw [h, List.getD_eq_getElem alphabet _ (hl ▸ hx)]
  exact List.getElem_mem _

/-- C11, counterexample.  The modulus `sizeof(alphanum) - 1` and the number of
symbols are 63, not 62, and the draw is not uniform: `'0'` has 68174085
preimages among the `2^32` generator values, the space has 68174084. -/
theorem draw_uniform_over_62_fails :
    sizeofAlphanum - 1 = 63 ∧ alphabet.length = 63 ∧ alphabet.length ≠ 62 ∧
      preimageCount '0' = 68174085 ∧ preimageCount ' ' = 68174084 ∧ ¬ DrawUniform := by
  have h0 : preimageCount '0' = 68174085 := preimageCount_index 0 (by decide)
  have h62 : preimageCount ' ' = 68174084 := preimageCount_index 62 (by decide)
  refine ⟨by decide, by decide, by decide, h0, h62, ?_⟩
  intro hu
  have h := hu '0' (by decide) ' ' (by decide)
  rw [h0, h62] at h
  exact absurd h (by decide)

/-- C11, amended.  Each character is `alphanum[g mod N]` with `g` a generator
value in `0 .. 2^32 - 1` and `N = sizeof(alphanum) - 1 = 63`; the alphabet
`[0-9A-Za-z ]` has exactly 63 distinct symbols and every drawn character is
one of them.  The draw is uniform only up to one preimage: `2^32 = 63 *
68174084 + 4`, so the symbols at the indices 0 to 3 (`0`, `1`, `2`, `3`) have
68174085 preimages among the `2^32` generator values and the other 59 have
68174084. -/
theorem randomChar_draw_distribution (g : Mt19937) :
    (randomChar g).1 = charOfOutput g.next.1 ∧
      (randomChar g).1 = alphanum.getD (g.next.1 % 63) (Char.ofNat 0) ∧
      g.next.1 < 4294967296 ∧
      (randomChar g).1 ∈ alphabet ∧
      sizeofAlphanum - 1 = 63 ∧
      alphabet = alphanumLiteral.data ∧ alphabet.length = 63 ∧ alphabet.Nodup ∧
      4294967296 = (sizeofAlphanum - 1) * 68174084 + 4 ∧
      (∀ i < 63, preimageCount (alphabet.getD i (Char.ofNat 0)) =
        if i < 4 then 68174085 else 68174084) ∧
      (∀ c ∈ alphabet, ∀ d ∈ alphabet, preimageCount c ≤ preimageCount d + 1) := by
  refine ⟨rfl, rfl, Nat.mod_lt _ (by decide), charOfOutput_mem _, by decide, alphabet_eq,
    by decide, alphabet_nodup, by decide, preimageCount_index, ?_⟩
  intro c hc d hd
  obtain ⟨i, hi, rfl⟩ := mem_alphabet_index c hc
  obtain ⟨j, hj, rfl⟩ := mem_alphabet_index d hd
  rw [preimageCount_index i hi, preimageCount_index j hj]
  split_ifs <;> decide

/-- C11, amended, at concrete inputs: the first draw of the sample engine, and the
symbols at the indices 0 and 62. -/
theorem randomChar_draw_distribution_witness :
    (randomChar sampleGen).1 ∈ alphabet ∧
      preimageCount (alphabet.getD 0 (Char.ofNat 0)) = 68174085 ∧
      preimageCount (alphabet.getD 62 (Char.ofNat 0)) = 68174084 :=
  ⟨(randomChar_draw_distribution sampleGen).2.2.2.1,
    (randomChar_draw_distribution sampleGen).2.2.2.2.2.2.2.2.2.1 0 (by decide),
    (randomChar_draw_distribution sampleGen).2.2.2.2.2.2.2.2.2.1 62 (by decide)⟩

end Sysloggen
